import Mathlib

/-!
Verification of the chkcrontab crontab checker (chkcrontab_lib.py).

This file gives a shallow embedding of the core of the checker:

* the finite-state machine that parses one cron time field
  (FSM.Run / InitCronFSM),
* the token classes CTTime, CTRange, CTRangeStep, CTStar, CTStarStep,
  CTText, CTTextRange, CTTextRangeStep and their GetDiagnostics methods,
* the per-position field limits (InitCronTimeFieldLimits),
* the line validators (CronLineChkCrontabCmd, CronLineAssignment,
  CronLineAt, CronLineTime, CronLineUnknown) and
* the LogCounter diagnostics aggregator,

together with theorems about parser totality, error reporting, diagnostic
independence, the star-only cross-field advisory, directive handling, the
suppression mechanism and the final severity verdict.

Representation notes:

* Python strings are Lean Strings; iteration over a string walks its
  character list (String.data).
* The data_out dictionary of FSM.Run becomes the structure DataOut; the
  presence of the key 'parser_error' becomes an Option.  The Python code
  stores the error as an already formatted string; we keep the three
  components (consumed text, offending character, unconsumed suffix) and
  provide ParserError.render producing exactly the Python string.
* Python int() applied to the digit strings accumulated by the FSM is
  pyInt (the usual base-10 left fold; on the digit-only strings the FSM
  produces this is exactly int()).
* The LogCounter buffers store (msg_kind, message) pairs; the Python
  code stores the single string '%s: %s' % (msg_kind, message), which is
  renderFinding applied to the pair.  print() calls are external output
  and have no effect on the logger state.
-/

/-- Python int() on the digit-only strings handed to it by the FSM
actions: the base-10 value of the string. -/
def pyInt (s : String) : Nat :=
  s.data.foldl (fun n c => 10 * n + (c.toNat - '0'.toNat)) 0

/-- The cron time field tokens: one constructor per CronTimeField
subclass of chkcrontab_lib.py (CTTime, CTRange, CTRangeStep, CTStar,
CTStarStep, CTText, CTTextRange, CTTextRangeStep). -/
inductive CronTimeField where
  | CTTime (start : Nat)
  | CTRange (start finish : Nat)
  | CTRangeStep (start finish step : Nat)
  | CTStar
  | CTStarStep (step : Nat)
  | CTText (start : String)
  | CTTextRange (start finish : String)
  | CTTextRangeStep (start finish : String) (step : Nat)
deriving DecidableEq, Repr

/-- The _kind attribute set by each subclass constructor. -/
def CronTimeField.Kind : CronTimeField → String
  | .CTTime _ => "time"
  | .CTRange _ _ => "range"
  | .CTRangeStep _ _ _ => "range_step"
  | .CTStar => "star"
  | .CTStarStep _ => "star_step"
  | .CTText _ => "text"
  | .CTTextRange _ _ => "text_range"
  | .CTTextRangeStep _ _ _ => "text_range_step"

/-- The _text attribute set by each subclass constructor (the canonical
rendering used by __str__); '%d' of a Nat is Nat.repr. -/
def CronTimeField.render : CronTimeField → String
  | .CTTime start => Nat.repr start
  | .CTRange a b => Nat.repr a ++ "-" ++ Nat.repr b
  | .CTRangeStep a b s => Nat.repr a ++ "-" ++ Nat.repr b ++ "/" ++ Nat.repr s
  | .CTStar => "*"
  | .CTStarStep s => "*/" ++ Nat.repr s
  | .CTText t => t
  | .CTTextRange a b => a ++ "-" ++ b
  | .CTTextRangeStep a b s => a ++ "-" ++ b ++ "/" ++ Nat.repr s

/-- The parser_error entry of data_out.  FSM.Run stores
'"%s[[%s]]%s"' % (parsed, char, rest) when a character has no
transition and '"%s" is incomplete' % parsed when input ends in a state
with no end action; render below produces those exact strings. -/
inductive ParserError where
  | split (parsed : String) (char : Char) (rest : String)
  | incomplete (parsed : String)
deriving DecidableEq, Repr

/-- The formatted string FSM.Run actually stores in data_out. -/
def ParserError.render : ParserError → String
  | .split p c r => "\"" ++ p ++ "[[" ++ String.singleton c ++ "]]" ++ r ++ "\""
  | .incomplete p => "\"" ++ p ++ "\" is incomplete"

/-- The data_out dictionary threaded through the FSM actions
(InitCronFSM initialises time, range, step to '' and cron_times to []). -/
structure DataOut where
  time : String
  range : String
  step : String
  cron_times : List CronTimeField
  parser_error : Option ParserError
deriving DecidableEq, Repr

/-- data_out_init of InitCronFSM. -/
def data_out_init : DataOut :=
  { time := "", range := "", step := "", cron_times := [], parser_error := none }

/-- Add a char to time. -/
def action_time (d : DataOut) (c : Char) : DataOut :=
  { d with time := d.time.push c }

/-- Set time to the char (the star). -/
def action_star (d : DataOut) (c : Char) : DataOut :=
  { d with time := String.singleton c }

/-- Move time to range, reset time. -/
def action_dash (d : DataOut) (_c : Char) : DataOut :=
  { d with range := d.time, time := "" }

/-- Add a char to step. -/
def action_step (d : DataOut) (c : Char) : DataOut :=
  { d with step := d.step.push c }

/-- Do nothing. -/
def action_noop (d : DataOut) (_c : Char) : DataOut := d

/-- Move time to cron_times as CTTime, reset time. -/
def action_time_comma (d : DataOut) : DataOut :=
  { d with cron_times := d.cron_times ++ [.CTTime (pyInt d.time)], time := "" }

/-- Append CTStar to cron_times, reset time. -/
def action_star_comma (d : DataOut) : DataOut :=
  { d with cron_times := d.cron_times ++ [.CTStar], time := "" }

/-- Append CTStarStep to cron_times, reset time and step. -/
def action_star_step_comma (d : DataOut) : DataOut :=
  { d with cron_times := d.cron_times ++ [.CTStarStep (pyInt d.step)],
           time := "", step := "" }

/-- Append CTText to cron_times, reset time. -/
def action_text_comma (d : DataOut) : DataOut :=
  { d with cron_times := d.cron_times ++ [.CTText d.time], time := "" }

/-- Append CTRange to cron_times, reset range and time. -/
def action_range_comma (d : DataOut) : DataOut :=
  { d with cron_times := d.cron_times ++ [.CTRange (pyInt d.range) (pyInt d.time)],
           range := "", time := "" }

/-- Append CTTextRange to cron_times, reset range and time. -/
def action_text_range_comma (d : DataOut) : DataOut :=
  { d with cron_times := d.cron_times ++ [.CTTextRange d.range d.time],
           range := "", time := "" }

/-- Append CTRangeStep to cron_times, reset range, time and step. -/
def action_range_step_comma (d : DataOut) : DataOut :=
  { d with cron_times :=
             d.cron_times ++ [.CTRangeStep (pyInt d.range) (pyInt d.time) (pyInt d.step)],
           range := "", time := "", step := "" }

/-- Append CTTextRangeStep to cron_times, reset range, time and step. -/
def action_text_range_step_comma (d : DataOut) : DataOut :=
  { d with cron_times :=
             d.cron_times ++ [.CTTextRangeStep d.range d.time (pyInt d.step)],
           range := "", time := "", step := "" }

/-- The FSM states registered by InitCronFSM (plus the implicit initial
state 'start'). -/
inductive FSMState where
  | start | star | start_star_step | star_step
  | time | start_range | range | start_range_step | range_step
  | text | start_text_range | text_range | start_text_range_step | text_range_step
  | next
deriving DecidableEq, Repr

/-- The transition table built by InitCronFSM: for a state and an input
character, the (action, next_state) pair if the character has a
transition.  string.digits membership is Char.isDigit, and
string.ascii_letters membership is Char.isAlpha (both are the ASCII
ranges).  Transition actions that Python also uses as end actions take
and ignore the char here, exactly as their unused_char parameter. -/
def fsmTransition : FSMState → Char → Option ((DataOut → Char → DataOut) × FSMState)
  | .start, c =>
    if c = '*' then some (action_star, .star)
    else if c.isDigit then some (action_time, .time)
    else if c.isAlpha then some (action_time, .text)
    else none
  | .next, c =>
    if c = '*' then some (action_star, .star)
    else if c.isDigit then some (action_time, .time)
    else if c.isAlpha then some (action_time, .text)
    else none
  | .star, c =>
    if c = ',' then some (fun d _ => action_star_comma d, .next)
    else if c = '/' then some (action_noop, .start_star_step)
    else none
  | .start_star_step, c =>
    if c.isDigit then some (action_step, .star_step) else none
  | .star_step, c =>
    if c.isDigit then some (action_step, .star_step)
    else if c = ',' then some (fun d _ => action_star_step_comma d, .next)
    else none
  | .time, c =>
    if c.isDigit then some (action_time, .time)
    else if c = ',' then some (fun d _ => action_time_comma d, .next)
    else if c = '-' then some (action_dash, .start_range)
    else none
  | .start_range, c =>
    if c.isDigit then some (action_time, .range) else none
  | .range, c =>
    if c.isDigit then some (action_time, .range)
    else if c = ',' then some (fun d _ => action_range_comma d, .next)
    else if c = '/' then some (action_noop, .start_range_step)
    else none
  | .start_range_step, c =>
    if c.isDigit then some (action_step, .range_step) else none
  | .range_step, c =>
    if c.isDigit then some (action_step, .range_step)
    else if c = ',' then some (fun d _ => action_range_step_comma d, .next)
    else none
  | .text, c =>
    if c.isAlpha then some (action_time, .text)
    else if c = ',' then some (fun d _ => action_text_comma d, .next)
    else if c = '-' then some (action_dash, .start_text_range)
    else none
  | .start_text_range, c =>
    if c.isAlpha then some (action_time, .text_range) else none
  | .text_range, c =>
    if c.isAlpha then some (action_time, .text_range)
    else if c = ',' then some (fun d _ => action_text_range_comma d, .next)
    else if c = '/' then some (action_noop, .start_text_range_step)
    else none
  | .start_text_range_step, c =>
    if c.isDigit then some (action_step, .text_range_step) else none
  | .text_range_step, c =>
    if c.isDigit then some (action_step, .text_range_step)
    else if c = ',' then some (fun d _ => action_text_range_step_comma d, .next)
    else none

/-- The end-state table built by InitCronFSM (FSM.end): the action run
when input is exhausted in the given state.  States without an entry
make FSM.Run report the field as incomplete. -/
def fsmEnd : FSMState → Option (DataOut → DataOut)
  | .star => some action_star_comma
  | .star_step => some action_star_step_comma
  | .time => some action_time_comma
  | .range => some action_range_comma
  | .range_step => some action_range_step_comma
  | .text => some action_text_comma
  | .text_range => some action_text_range_comma
  | .text_range_step => some action_text_range_step_comma
  | _ => none

/-- The loop body of FSM.Run: parsed is the list of characters consumed
so far, the last argument the characters still to consume.  On a
character with no transition, Python stores
'"%s[[%s]]%s"' % (parsed, char, data_in[len(parsed)+1:]); since parsed
is always the consumed part of data_in, that slice is exactly the
remaining characters after char. -/
def fsmRunAux : FSMState → DataOut → List Char → List Char → DataOut
  | st, d, parsed, [] =>
    match fsmEnd st with
    | none => { d with parser_error := some (.incomplete (String.mk parsed)) }
    | some act => act d
  | st, d, parsed, c :: cs =>
    match fsmTransition st c with
    | none => { d with parser_error := some (.split (String.mk parsed) c (String.mk cs)) }
    | some (act, st2) => fsmRunAux st2 (act d c) (parsed ++ [c]) cs

/-- FSM.Run on the machine built by InitCronFSM: deep-copy the initial
data_out, start in state 'start' with nothing parsed, and walk the
input. -/
def fsmRun (data_in : String) : DataOut :=
  fsmRunAux .start data_out_init [] data_in.data

/-- Error-free prefix consumption: the result of the FSM loop on input
it fully consumes without hitting a missing transition, together with
the state reached.  None when some character has no transition.  This
is the specification-side companion of fsmRunAux used to state which
tokens were completed before a failure. -/
def fsmConsume : FSMState → DataOut → List Char → Option (DataOut × FSMState)
  | st, d, [] => some (d, st)
  | st, d, c :: cs =>
    match fsmTransition st c with
    | none => none
    | some (act, st2) => fsmConsume st2 (act d c) cs

/-- Limits for one cron time field position (CronTimeFieldLimit). -/
structure CronTimeFieldLimit where
  min_time : Nat
  max_time : Nat
  valid_text : List String
  name : String
deriving DecidableEq, Repr

/-- CheckLowStep of CronTimeField: the token's step against 1.  The
message embeds the token's rendering (self.__str__). -/
def CheckLowStep (self : CronTimeField) (step : Nat) (f : CronTimeFieldLimit) : List String :=
  if step < 1 then
    [Nat.repr step ++ " is too low for field \"" ++ f.name ++ "\" (" ++ self.render ++ ")"]
  else []

/-- CheckHighStep of CronTimeField: the token's step against its end. -/
def CheckHighStep (self : CronTimeField) (step finish : Nat) (f : CronTimeFieldLimit) : List String :=
  if step > finish then
    ["the step (" ++ Nat.repr step ++ ") is greater than the last number (" ++
      Nat.repr finish ++ ") in field \"" ++ f.name ++ "\" (" ++ self.render ++ ")"]
  else []

/-- CheckLowNum of CronTimeField: a value against the field minimum. -/
def CheckLowNum (self : CronTimeField) (time_field : Nat) (f : CronTimeFieldLimit) : List String :=
  if time_field < f.min_time then
    [Nat.repr time_field ++ " is too low for field \"" ++ f.name ++ "\" (" ++ self.render ++ ")"]
  else []

/-- CheckHighNum of CronTimeField: a value against the field maximum. -/
def CheckHighNum (self : CronTimeField) (time_field : Nat) (f : CronTimeFieldLimit) : List String :=
  if time_field > f.max_time then
    [Nat.repr time_field ++ " is too high for field \"" ++ f.name ++ "\" (" ++ self.render ++ ")"]
  else []

/-- CheckRange of CronTimeField: start against end. -/
def CheckRange (self : CronTimeField) (start finish : Nat) (f : CronTimeFieldLimit) : List String :=
  if start > finish then
    [Nat.repr start ++ " is greater than " ++ Nat.repr finish ++ " in field \"" ++
      f.name ++ "\" (" ++ self.render ++ ")"]
  else []

/-- CheckValidText of CronTimeField: the lowercased text against the
field's valid_text list (the inputs reaching this are ASCII letters, on
which String.toLower agrees with Python str.lower). -/
def CheckValidText (self : CronTimeField) (time_field : String) (f : CronTimeFieldLimit) : List String :=
  if time_field.toLower ∉ f.valid_text then
    [time_field ++ " is not valid for field \"" ++ f.name ++ "\" (" ++ self.render ++ ")"]
  else []

/-- GetDiagnostics of each CronTimeField subclass: the checks each
subclass runs, in source order, each appending its message to the
diagnostics list independently. -/
def CronTimeField.GetDiagnostics (self : CronTimeField) (f : CronTimeFieldLimit) : List String :=
  match self with
  | .CTTime start =>
    CheckLowNum self start f ++ CheckHighNum self start f
  | .CTRange start finish =>
    CheckRange self start finish f ++ CheckLowNum self start f ++ CheckHighNum self finish f
  | .CTRangeStep start finish step =>
    CheckRange self start finish f ++ CheckLowNum self start f ++ CheckHighNum self finish f ++
      CheckLowStep self step f ++ CheckHighStep self step finish f ++ CheckHighNum self step f
  | .CTStar => []
  | .CTStarStep step =>
    CheckLowStep self step f ++ CheckHighNum self step f
  | .CTText t =>
    CheckValidText self t f
  | .CTTextRange a b =>
    CheckValidText self a f ++ CheckValidText self b f
  | .CTTextRangeStep a b step =>
    CheckValidText self a f ++ CheckValidText self b f ++
      CheckLowStep self step f ++ CheckHighNum self step f

/-- ChkCTStarOnly: True when the parsed field is empty or is exactly
one token of kind 'star'. -/
def ChkCTStarOnly (cron_time_field : List CronTimeField) : Bool :=
  match cron_time_field with
  | [] => true
  | [ct] => ct.Kind == "star"
  | _ => false

/-- InitCronTimeFieldLimits: the five per-position limit records, each
carrying its own name.  Only ever applied to the five field names. -/
def InitCronTimeFieldLimits : String → CronTimeFieldLimit
  | "minute" => { min_time := 0, max_time := 59, valid_text := [], name := "minute" }
  | "hour" => { min_time := 0, max_time := 23, valid_text := [], name := "hour" }
  | "day of month" => { min_time := 1, max_time := 31, valid_text := [], name := "day of month" }
  | "month" =>
    { min_time := 1, max_time := 12,
      valid_text := ["jan", "feb", "mar", "apr", "may", "jun", "jul", "aug",
                     "sep", "oct", "nov", "dec"],
      name := "month" }
  | "day of week" =>
    { min_time := 0, max_time := 7,
      valid_text := ["sun", "mon", "tue", "wed", "thu", "fri", "sat"],
      name := "day of week" }
  | other => { min_time := 0, max_time := 0, valid_text := [], name := other }

/-- The closed set of message kinds of LogCounter (_msg_kinds). -/
def msg_kinds : List String :=
  ["BARE_PERCENT", "CHKCRONTAB_ERROR", "FIELD_PARSE_ERROR", "FIELD_VALUE_ERROR",
   "INVALID_AT", "INVALID_USER", "LINE_ERROR", "QUOTE_VALUES", "SHELL_VAR",
   "USER_NOT_FOUND", "HOURS_NOT_MINUTES"]

/-- The LogCounter state: counters, the suppression set _ignored
(a Python set, here a duplicate-free list), and the per-line pending
buffers.  Buffer entries keep the (msg_kind, message) pair whose
rendering '%s: %s' is what the Python code stores. -/
structure LogCounter where
  _error_count : Nat
  _warn_count : Nat
  _ignored : List String
  _line_errors : List (String × String)
  _line_warns : List (String × String)
deriving DecidableEq, Repr

/-- The string LogCounter.LineWarn / LineError actually buffers. -/
def renderFinding (msg_kind message : String) : String :=
  msg_kind ++ ": " ++ message

/-- A freshly constructed LogCounter (LogCounter.__init__). -/
def log0 : LogCounter :=
  { _error_count := 0, _warn_count := 0, _ignored := [], _line_errors := [], _line_warns := [] }

/-- LogCounter.Ignore: set.add on _ignored. -/
def LogCounter.Ignore (log : LogCounter) (msg_kind : String) : LogCounter :=
  { log with _ignored := if msg_kind ∈ log._ignored then log._ignored else msg_kind :: log._ignored }

/-- LogCounter.Unignore: set.discard on _ignored. -/
def LogCounter.Unignore (log : LogCounter) (msg_kind : String) : LogCounter :=
  { log with _ignored := log._ignored.erase msg_kind }

/-- LogCounter.ValidMsgKind: membership in the _msg_kinds set. -/
def LogCounter.ValidMsgKind (_log : LogCounter) (msg_kind : String) : Bool :=
  msg_kind ∈ msg_kinds

/-- LogCounter.Warn: print the message (external output) and increment
the warning counter, unconditionally. -/
def LogCounter.Warn (log : LogCounter) (_message : String) : LogCounter :=
  { log with _warn_count := log._warn_count + 1 }

/-- LogCounter.LineWarn: if the kind is not ignored, buffer the finding
and increment the warning counter; otherwise do nothing. -/
def LogCounter.LineWarn (log : LogCounter) (msg_kind line_warn : String) : LogCounter :=
  if msg_kind ∉ log._ignored then
    { log with _line_warns := log._line_warns ++ [(msg_kind, line_warn)],
               _warn_count := log._warn_count + 1 }
  else log

/-- LogCounter.Error: print the message (external output) and increment
the error counter, unconditionally. -/
def LogCounter.Error (log : LogCounter) (_message : String) : LogCounter :=
  { log with _error_count := log._error_count + 1 }

/-- LogCounter.LineError: if the kind is not ignored, buffer the finding
and increment the error counter; otherwise do nothing. -/
def LogCounter.LineError (log : LogCounter) (msg_kind line_error : String) : LogCounter :=
  if msg_kind ∉ log._ignored then
    { log with _line_errors := log._line_errors ++ [(msg_kind, line_error)],
               _error_count := log._error_count + 1 }
  else log

/-- LogCounter.Emit: print the queued findings with their line context
(external output) and clear both buffers; counters are untouched. -/
def LogCounter.Emit (log : LogCounter) : LogCounter :=
  { log with _line_errors := [], _line_warns := [] }

/-- LogCounter.Summary: 2 on any error, else 1 on any warning, else 0. -/
def LogCounter.Summary (log : LogCounter) : Nat :=
  if log._error_count > 0 then 2
  else if log._warn_count > 0 then 1
  else 0

/-- CronLineChkCrontabCmd.ValidateAndLog: flag unknown categories and
bad commands as CHKCRONTAB_ERROR; disable-msg adds the category to the
suppression set and enable-msg removes it (both happen for whatever
category string was given, valid or not). -/
def CronLineChkCrontabCmd_ValidateAndLog (command msg_kind : String) (log : LogCounter) : LogCounter :=
  let log1 :=
    if !(log.ValidMsgKind msg_kind) then
      log.LineError "CHKCRONTAB_ERROR" ("\"" ++ msg_kind ++ "\" is an unknown error message.")
    else log
  if command = "disable-msg" then log1.Ignore msg_kind
  else if command = "enable-msg" then log1.Unignore msg_kind
  else log1.LineError "CHKCRONTAB_ERROR"
    "Invalid chkcrontab command - must be enable-msg or disable-msg."

/-- string.whitespace of Python (ASCII). -/
def pyWhitespace : List Char :=
  [' ', '\t', '\n', Char.ofNat 13, Char.ofNat 11, Char.ofNat 12]

/-- CronLineAssignment.ValidateAndLog: error when the right-hand side
strips to nothing, warning when it contains a dollar sign. -/
def CronLineAssignment_ValidateAndLog (variable_ : String) (log : LogCounter) : LogCounter :=
  let log :=
    if variable_.data.all (fun c => c ∈ pyWhitespace) then
      log.LineError "QUOTE_VALUES"
        "Variable assignments in crontabs must contain non-whitespace characters (try quotes)."
    else log
  if '$' ∈ variable_.data then
    log.LineWarn "SHELL_VAR"
      "Variable assignments in crontabs are not like shell.  $VAR is not expanded."
  else log

/-- The valid @ periods of CronLineAt._CheckTimeField. -/
def valid_at_periods : List String :=
  ["reboot", "yearly", "annually", "monthly", "weekly", "daily", "midnight", "hourly"]

/-- CronLineAt._CheckTimeField. -/
def CronLineAt_CheckTimeField (time_field : String) (log : LogCounter) : LogCounter :=
  if time_field ∉ valid_at_periods then
    log.LineError "INVALID_AT" ("Invalid @ directive \"" ++ time_field ++ "\"")
  else log

/-- One iteration of the field loop of CronLineTime._CheckTimeField:
parse the field, report a FIELD_PARSE_ERROR when the parse failed, then
report each token diagnostic as a FIELD_VALUE_ERROR. -/
def checkOneField (field text : String) (log : LogCounter) : LogCounter :=
  let parsed := fsmRun text
  let log :=
    match parsed.parser_error with
    | some err =>
      log.LineError "FIELD_PARSE_ERROR"
        ("Failed to fully parse \"" ++ field ++ "\" field here: " ++ err.render)
    | none => log
  parsed.cron_times.foldl
    (fun log ct =>
      (ct.GetDiagnostics (InitCronTimeFieldLimits field)).foldl
        (fun log line_error => log.LineError "FIELD_VALUE_ERROR" line_error) log)
    log

/-- CronLineTime._CheckTimeField: check the five fields individually in
source order, then the cross-field star-only advisory. -/
def CronLineTime_CheckTimeField (minute hour dom month dow : String) (log : LogCounter) : LogCounter :=
  let log := checkOneField "minute" minute log
  let log := checkOneField "hour" hour log
  let log := checkOneField "day of month" dom log
  let log := checkOneField "month" month log
  let log := checkOneField "day of week" dow log
  if ChkCTStarOnly (fsmRun minute).cron_times && !(ChkCTStarOnly (fsmRun hour).cron_times) then
    log.LineWarn "HOURS_NOT_MINUTES" "Cron will run this every minute for the hours set."
  else log

/-- The module-level USER_WHITELIST (callers may extend it). -/
def USER_WHITELIST : List String := ["postgres", "buildbot"]

/-- Python str.startswith. -/
def pyStartswith (s pre : String) : Bool :=
  pre.data.isPrefixOf s.data

/-- The character class of the invalid-username regex
[\s!"#$%&'()*+,/:;<=>?@[\]^`{|}~] (ASCII; the inputs reaching it are
ASCII). -/
def invalid_user_chars : List Char :=
  pyWhitespace ++
  ['!', Char.ofNat 34, '#', '$', '%', '&', Char.ofNat 39, '(', ')', '*', '+', ',',
   '/', ':', ';', '<', '=', '>', '?', '@', '[', '\\', ']', '^', Char.ofNat 96,
   Char.ofNat 123, '|', Char.ofNat 125, '~']

/-- re.search of the invalid-username character class. -/
def hasInvalidUserChar (user : String) : Bool :=
  user.data.any (fun c => c ∈ invalid_user_chars)

/-- re.search(r'[^\\]%', command): some character other than a
backslash immediately followed by a percent sign. -/
def hasBarePercent : List Char → Bool
  | a :: b :: rest => (a != '\\' && b == '%') || hasBarePercent (b :: rest)
  | _ => false

/-- CronLineTimeAction.ValidateAndLog: run the subclass time-field
check, then the user checks (skipped wholesale for whitelisted users,
with existence resolution delegated to the getpwnam_found collaborator),
then the bare-percent command check. -/
def CronLineTimeAction_ValidateAndLog (check_time : LogCounter → LogCounter)
    (user_whitelist : List String) (getpwnam_found : String → Bool)
    (user command : String) (log : LogCounter) : LogCounter :=
  let log := check_time log
  if user ∈ user_whitelist then log
  else
    let log :=
      if user.length > 31 then
        log.LineError "INVALID_USER" ("Username too long \"" ++ user ++ "\"")
      else if pyStartswith user "-" then
        log.LineError "INVALID_USER" ("Invalid username \"" ++ user ++ "\"")
      else if hasInvalidUserChar user then
        log.LineError "INVALID_USER" ("Invalid username \"" ++ user ++ "\"")
      else if getpwnam_found user then log
      else log.LineWarn "USER_NOT_FOUND" ("User \"" ++ user ++ "\" not found.")
    if pyStartswith command "%" || hasBarePercent command.data then
      log.LineWarn "BARE_PERCENT" "A bare % is a line break in crontab and is commonly not intended."
    else log

/-- The classified cron lines (the CronLine* classes produced by
CronLineFactory.ParseLine), each owning the data its validator needs. -/
inductive CronLine where
  | empty
  | comment
  | chkcrontabCmd (command msg_kind : String)
  | assignment (variable_ : String)
  | atLine (time_field user command : String)
  | timeLine (minute hour dom month dow user command : String)
  | unknown
deriving DecidableEq, Repr

/-- Whether a classified line is a chkcrontab directive. -/
def CronLine.isDirective : CronLine → Bool
  | .chkcrontabCmd _ _ => true
  | _ => false

/-- Dispatch to the ValidateAndLog of each line class. -/
def CronLine.ValidateAndLog (user_whitelist : List String) (getpwnam_found : String → Bool) :
    CronLine → LogCounter → LogCounter
  | .empty, log => log
  | .comment, log => log
  | .chkcrontabCmd command msg_kind, log => CronLineChkCrontabCmd_ValidateAndLog command msg_kind log
  | .assignment variable_, log => CronLineAssignment_ValidateAndLog variable_ log
  | .atLine tf user command, log =>
    CronLineTimeAction_ValidateAndLog (CronLineAt_CheckTimeField tf)
      user_whitelist getpwnam_found user command log
  | .timeLine m h dom mon dow user command, log =>
    CronLineTimeAction_ValidateAndLog (CronLineTime_CheckTimeField m h dom mon dow)
      user_whitelist getpwnam_found user command log
  | .unknown, log => log.LineError "LINE_ERROR" "Failed to parse line."

/-- One iteration of the check_crontab line loop: validate the line,
then Emit the buffered findings. -/
def processLine (user_whitelist : List String) (getpwnam_found : String → Bool)
    (line : CronLine) (log : LogCounter) : LogCounter :=
  ((line.ValidateAndLog user_whitelist getpwnam_found) log).Emit

/-- The check_crontab line loop over a classified file. -/
def processLines (user_whitelist : List String) (getpwnam_found : String → Bool)
    (lines : List CronLine) (log : LogCounter) : LogCounter :=
  lines.foldl (fun log line => processLine user_whitelist getpwnam_found line log) log

/-- The aggregator operations a line validation run issues against the
LogCounter (the buffered findings and the directive mutations; the
immediate Warn/Error of the driver are covered separately). -/
inductive LogOp where
  | lineWarn (msg_kind message : String)
  | lineError (msg_kind message : String)
  | ignore (msg_kind : String)
  | unignore (msg_kind : String)
  | emit
deriving DecidableEq, Repr

/-- Apply one aggregator operation. -/
def LogOp.apply (log : LogCounter) : LogOp → LogCounter
  | .lineWarn k m => log.LineWarn k m
  | .lineError k m => log.LineError k m
  | .ignore k => log.Ignore k
  | .unignore k => log.Unignore k
  | .emit => log.Emit

/-- Apply a sequence of aggregator operations. -/
def applyOps (log : LogCounter) (ops : List LogOp) : LogCounter :=
  ops.foldl LogOp.apply log

/-- Specification-side count of the LineWarn findings that are buffered
(not suppressed at the moment they arrive), tracking the evolution of
the suppression set. -/
def countBufferedWarns (ignored : List String) : List LogOp → Nat
  | [] => 0
  | .lineWarn k _ :: rest => (if k ∈ ignored then 0 else 1) + countBufferedWarns ignored rest
  | .lineError _ _ :: rest => countBufferedWarns ignored rest
  | .ignore k :: rest =>
    countBufferedWarns (if k ∈ ignored then ignored else k :: ignored) rest
  | .unignore k :: rest => countBufferedWarns (ignored.erase k) rest
  | .emit :: rest => countBufferedWarns ignored rest

/-- Specification-side count of the LineError findings that are
buffered (not suppressed at the moment they arrive). -/
def countBufferedErrors (ignored : List String) : List LogOp → Nat
  | [] => 0
  | .lineWarn _ _ :: rest => countBufferedErrors ignored rest
  | .lineError k _ :: rest => (if k ∈ ignored then 0 else 1) + countBufferedErrors ignored rest
  | .ignore k :: rest =>
    countBufferedErrors (if k ∈ ignored then ignored else k :: ignored) rest
  | .unignore k :: rest => countBufferedErrors (ignored.erase k) rest
  | .emit :: rest => countBufferedErrors ignored rest

/-- A nonempty all-digits string written canonically (no leading zeros):
it equals the decimal rendering of its own value.  This is the numeric
component N of the single-element grammar shapes, restricted to the
inputs on which parsing and re-rendering can round-trip. -/
def NumCanon (s : String) : Prop :=
  s.data ≠ [] ∧ (∀ c ∈ s.data, c.isDigit) ∧ Nat.repr (pyInt s) = s

/-- A nonempty all-ASCII-letters string: the text component T of the
single-element grammar shapes. -/
def TextOK (s : String) : Prop :=
  s.data ≠ [] ∧ ∀ c ∈ s.data, c.isAlpha

/-- The single-element field shapes of claim C6 (the grammar rows *, N,
N-N, N-N/N, T, T-T, T-T/N), with every numeric component written
canonically. -/
def SingleElementShape (s : String) : Prop :=
  s = "*" ∨
  NumCanon s ∨
  (∃ a b, NumCanon a ∧ NumCanon b ∧ s = a ++ "-" ++ b) ∨
  (∃ a b n, NumCanon a ∧ NumCanon b ∧ NumCanon n ∧ s = a ++ "-" ++ b ++ "/" ++ n) ∨
  TextOK s ∨
  (∃ a b, TextOK a ∧ TextOK b ∧ s = a ++ "-" ++ b) ∨
  (∃ a b n, TextOK a ∧ TextOK b ∧ NumCanon n ∧ s = a ++ "-" ++ b ++ "/" ++ n)

/-- The structural characters of the field grammar: star, dash, slash
and comma (every other accepted character is a digit or an ASCII
letter). -/
def structuralChar (c : Char) : Bool :=
  c = '*' || c = '-' || c = '/' || c = ','

lemma foldl_preserve {α β : Type} (f : LogCounter → α → LogCounter) (g : LogCounter → β)
    (hf : ∀ log a, g (f log a) = g log) :
    ∀ (l : List α) (log : LogCounter), g (l.foldl f log) = g log := by
  intro l
  induction l with
  | nil => intro log; rfl
  | cons a l ih =>
    intro log
    simp only [List.foldl_cons]
    rw [ih, hf]

lemma lineWarn_ignored (log : LogCounter) (k m : String) :
    (log.LineWarn k m)._ignored = log._ignored := by
  unfold LogCounter.LineWarn; split <;> rfl

lemma lineError_ignored (log : LogCounter) (k m : String) :
    (log.LineError k m)._ignored = log._ignored := by
  unfold LogCounter.LineError; split <;> rfl

lemma lineError_warns (log : LogCounter) (k m : String) :
    (log.LineError k m)._line_warns = log._line_warns := by
  unfold LogCounter.LineError; split <;> rfl

lemma lineWarn_errors (log : LogCounter) (k m : String) :
    (log.LineWarn k m)._line_errors = log._line_errors := by
  unfold LogCounter.LineWarn; split <;> rfl

lemma lineWarn_error_count (log : LogCounter) (k m : String) :
    (log.LineWarn k m)._error_count = log._error_count := by
  unfold LogCounter.LineWarn; split <;> rfl

lemma lineError_warn_count (log : LogCounter) (k m : String) :
    (log.LineError k m)._warn_count = log._warn_count := by
  unfold LogCounter.LineError; split <;> rfl

lemma lineError_mem (log : LogCounter) (k m : String) :
    ∀ x ∈ (log.LineError k m)._line_errors, x ∈ log._line_errors ∨ x.1 = k := by
  intro x hx
  unfold LogCounter.LineError at hx
  split at hx
  · simp only [List.mem_append, List.mem_singleton] at hx
    rcases hx with h | h
    · exact Or.inl h
    · subst h; exact Or.inr rfl
  · exact Or.inl hx

lemma lineWarn_mem (log : LogCounter) (k m : String) :
    ∀ x ∈ (log.LineWarn k m)._line_warns, x ∈ log._line_warns ∨ x.1 = k := by
  intro x hx
  unfold LogCounter.LineWarn at hx
  split at hx
  · simp only [List.mem_append, List.mem_singleton] at hx
    rcases hx with h | h
    · exact Or.inl h
    · subst h; exact Or.inr rfl
  · exact Or.inl hx

lemma applyOps_warn_count : ∀ (ops : List LogOp) (log : LogCounter),
    (applyOps log ops)._warn_count = log._warn_count + countBufferedWarns log._ignored ops := by
  intro ops
  induction ops with
  | nil => intro log; simp [applyOps, countBufferedWarns]
  | cons op rest ih =>
    intro log
    have hstep : applyOps log (op :: rest) = applyOps (LogOp.apply log op) rest := by
      simp [applyOps]
    rw [hstep]
    cases op with
    | lineWarn k m =>
      by_cases h : k ∈ log._ignored
      · have : LogOp.apply log (.lineWarn k m) = log := by
          simp [LogOp.apply, LogCounter.LineWarn, h]
        rw [this, ih, countBufferedWarns]
        simp [h]
      · have : LogOp.apply log (.lineWarn k m) =
            { log with _line_warns := log._line_warns ++ [(k, m)],
                       _warn_count := log._warn_count + 1 } := by
          simp [LogOp.apply, LogCounter.LineWarn, h]
        rw [this, ih, countBufferedWarns]
        simp [h]
        omega
    | lineError k m =>
      by_cases h : k ∈ log._ignored
      · have : LogOp.apply log (.lineError k m) = log := by
          simp [LogOp.apply, LogCounter.LineError, h]
        rw [this, ih, countBufferedWarns]
      · have : LogOp.apply log (.lineError k m) =
            { log with _line_errors := log._line_errors ++ [(k, m)],
                       _error_count := log._error_count + 1 } := by
          simp [LogOp.apply, LogCounter.LineError, h]
        rw [this, ih, countBufferedWarns]
    | ignore k =>
      rw [ih, countBufferedWarns]
      simp [LogOp.apply, LogCounter.Ignore]
    | unignore k =>
      rw [ih, countBufferedWarns]
      simp [LogOp.apply, LogCounter.Unignore]
    | emit =>
      rw [ih, countBufferedWarns]
      simp [LogOp.apply, LogCounter.Emit]

lemma applyOps_error_count : ∀ (ops : List LogOp) (log : LogCounter),
    (applyOps log ops)._error_count = log._error_count + countBufferedErrors log._ignored ops := by
  intro ops
  induction ops with
  | nil => intro log; simp [applyOps, countBufferedErrors]
  | cons op rest ih =>
    intro log
    have hstep : applyOps log (op :: rest) = applyOps (LogOp.apply log op) rest := by
      simp [applyOps]
    rw [hstep]
    cases op with
    | lineWarn k m =>
      by_cases h : k ∈ log._ignored
      · have : LogOp.apply log (.lineWarn k m) = log := by
          simp [LogOp.apply, LogCounter.LineWarn, h]
        rw [this, ih, countBufferedErrors]
      · have : LogOp.apply log (.lineWarn k m) =
            { log with _line_warns := log._line_warns ++ [(k, m)],
                       _warn_count := log._warn_count + 1 } := by
          simp [LogOp.apply, LogCounter.LineWarn, h]
        rw [this, ih, countBufferedErrors]
    | lineError k m =>
      by_cases h : k ∈ log._ignored
      · have : LogOp.apply log (.lineError k m) = log := by
          simp [LogOp.apply, LogCounter.LineError, h]
        rw [this, ih, countBufferedErrors]
        simp [h]
      · have : LogOp.apply log (.lineError k m) =
            { log with _line_errors := log._line_errors ++ [(k, m)],
                       _error_count := log._error_count + 1 } := by
          simp [LogOp.apply, LogCounter.LineError, h]
        rw [this, ih, countBufferedErrors]
        simp [h]
        omega
    | ignore k =>
      rw [ih, countBufferedErrors]
      simp [LogOp.apply, LogCounter.Ignore]
    | unignore k =>
      rw [ih, countBufferedErrors]
      simp [LogOp.apply, LogCounter.Unignore]
    | emit =>
      rw [ih, countBufferedErrors]
      simp [LogOp.apply, LogCounter.Emit]

/-- Claim C5: findings whose category is currently suppressed are
dropped silently (the aggregator state is unchanged, so nothing is
buffered and nothing is counted); over any sequence of aggregator
operations started on a fresh logger, error_count and warn_count equal
exactly the number of non-suppressed LineError / LineWarn findings
buffered so far; and the final verdict is 2 on any error, else 1 on any
warning, else 0. -/
theorem c5_suppression_counts_verdict :
    (∀ (log : LogCounter) (k m : String), k ∈ log._ignored →
      log.LineWarn k m = log ∧ log.LineError k m = log) ∧
    (∀ ops : List LogOp,
      (applyOps log0 ops)._warn_count = countBufferedWarns [] ops ∧
      (applyOps log0 ops)._error_count = countBufferedErrors [] ops ∧
      (applyOps log0 ops).Summary =
        (if countBufferedErrors [] ops > 0 then 2
         else if countBufferedWarns [] ops > 0 then 1 else 0)) := by
  constructor
  · intro log k m h
    constructor
    · simp [LogCounter.LineWarn, h]
    · simp [LogCounter.LineError, h]
  · intro ops
    have hw := applyOps_warn_count ops log0
    have he := applyOps_error_count ops log0
    have hw0 : (applyOps log0 ops)._warn_count = countBufferedWarns [] ops := by
      simpa [log0] using hw
    have he0 : (applyOps log0 ops)._error_count = countBufferedErrors [] ops := by
      simpa [log0] using he
    refine ⟨hw0, he0, ?_⟩
    rw [LogCounter.Summary, hw0, he0]

/-- Witness for C5 at a concrete operation sequence and logger. -/
theorem c5_suppression_counts_verdict_witness :
    ({ log0 with _ignored := ["SHELL_VAR"] } : LogCounter).LineWarn "SHELL_VAR" "m" =
      { log0 with _ignored := ["SHELL_VAR"] } ∧
    (applyOps log0 [.lineWarn "SHELL_VAR" "a", .ignore "SHELL_VAR",
                    .lineWarn "SHELL_VAR" "b", .emit])._warn_count =
      countBufferedWarns [] [.lineWarn "SHELL_VAR" "a", .ignore "SHELL_VAR",
                             .lineWarn "SHELL_VAR" "b", .emit] :=
  ⟨(c5_suppression_counts_verdict.1 { log0 with _ignored := ["SHELL_VAR"] } "SHELL_VAR" "m"
      (by decide)).1,
   (c5_suppression_counts_verdict.2 [.lineWarn "SHELL_VAR" "a", .ignore "SHELL_VAR",
                                     .lineWarn "SHELL_VAR" "b", .emit]).1⟩

/-- Claim C10: the immediate (non-buffered) Warn and Error operations
increment their counters unconditionally, leaving the suppression set
alone, so even with every category disabled an immediate message still
drives the final verdict. -/
theorem c10_immediate_warn_error_count : ∀ (log : LogCounter) (m1 m2 : String),
    (log.Warn m1)._warn_count = log._warn_count + 1 ∧
    (log.Error m2)._error_count = log._error_count + 1 ∧
    (log.Warn m1)._ignored = log._ignored ∧
    (log.Error m2)._ignored = log._ignored ∧
    ((msg_kinds.foldl (fun l k => l.Ignore k) log0).Warn m1).Summary = 1 ∧
    ((msg_kinds.foldl (fun l k => l.Ignore k) log0).Error m2).Summary = 2 := by
  intro log m1 m2
  refine ⟨rfl, rfl, rfl, rfl, rfl, rfl⟩

/-- Claim C2 counterexample: against the hour limit 0-23 the range
30-40 yields only the single too-high diagnostic for the end value 40;
no too-high diagnostic is emitted for the start value 30, contrary to
the claim. -/
theorem c2_range_counterexample :
    (CronTimeField.CTRange 30 40).GetDiagnostics (InitCronTimeFieldLimits "hour") =
      ["40 is too high for field \"hour\" (30-40)"] ∧
    "30 is too high for field \"hour\" (30-40)" ∉
      (CronTimeField.CTRange 30 40).GetDiagnostics (InitCronTimeFieldLimits "hour") := by
  constructor
  · rfl
  · decide

/-- Claim C2 as amended: for Range tokens the too-low check is applied
only to the start value and the too-high check only to the end value
(besides the start-greater-than-end ordering check); RangeStep tokens
additionally run the low/high step checks and check the step against
the field maximum.  Each check contributes its message independently. -/
theorem c2_range_checks_amended : ∀ (a b st : Nat) (f : CronTimeFieldLimit),
    ((CronTimeField.CTRange a b).GetDiagnostics f =
      (if a > b then
        [Nat.repr a ++ " is greater than " ++ Nat.repr b ++ " in field \"" ++ f.name ++
          "\" (" ++ (CronTimeField.CTRange a b).render ++ ")"] else []) ++
      (if a < f.min_time then
        [Nat.repr a ++ " is too low for field \"" ++ f.name ++ "\" (" ++
          (CronTimeField.CTRange a b).render ++ ")"] else []) ++
      (if b > f.max_time then
        [Nat.repr b ++ " is too high for field \"" ++ f.name ++ "\" (" ++
          (CronTimeField.CTRange a b).render ++ ")"] else [])) ∧
    ((CronTimeField.CTRangeStep a b st).GetDiagnostics f =
      (if a > b then
        [Nat.repr a ++ " is greater than " ++ Nat.repr b ++ " in field \"" ++ f.name ++
          "\" (" ++ (CronTimeField.CTRangeStep a b st).render ++ ")"] else []) ++
      (if a < f.min_time then
        [Nat.repr a ++ " is too low for field \"" ++ f.name ++ "\" (" ++
          (CronTimeField.CTRangeStep a b st).render ++ ")"] else []) ++
      (if b > f.max_time then
        [Nat.repr b ++ " is too high for field \"" ++ f.name ++ "\" (" ++
          (CronTimeField.CTRangeStep a b st).render ++ ")"] else []) ++
      (if st < 1 then
        [Nat.repr st ++ " is too low for field \"" ++ f.name ++ "\" (" ++
          (CronTimeField.CTRangeStep a b st).render ++ ")"] else []) ++
      (if st > b then
        ["the step (" ++ Nat.repr st ++ ") is greater than the last number (" ++
          Nat.repr b ++ ") in field \"" ++ f.name ++ "\" (" ++
          (CronTimeField.CTRangeStep a b st).render ++ ")"] else []) ++
      (if st > f.max_time then
        [Nat.repr st ++ " is too high for field \"" ++ f.name ++ "\" (" ++
          (CronTimeField.CTRangeStep a b st).render ++ ")"] else [])) := by
  intro a b st f
  constructor
  · rfl
  · rfl

lemma ignore_errors (log : LogCounter) (k : String) :
    (log.Ignore k)._line_errors = log._line_errors := rfl

lemma unignore_errors (log : LogCounter) (k : String) :
    (log.Unignore k)._line_errors = log._line_errors := rfl

lemma checkOneField_preserve {β : Type} (g : LogCounter → β)
    (hg : ∀ (log : LogCounter) (k m : String), g (log.LineError k m) = g log)
    (field text : String) (log : LogCounter) :
    g (checkOneField field text log) = g log := by
  have houter := foldl_preserve
      (fun (log : LogCounter) (ct : CronTimeField) =>
        (ct.GetDiagnostics (InitCronTimeFieldLimits field)).foldl
          (fun log line_error => log.LineError "FIELD_VALUE_ERROR" line_error) log)
      g
      (fun log ct => foldl_preserve _ g (fun l m => hg l _ m) _ _)
  unfold checkOneField
  rw [houter]
  cases h : (fsmRun text).parser_error
  · rfl
  · simp only [h]
    exact hg _ _ _

lemma checkTimeField_ignored (m h dom mon dow : String) (log : LogCounter) :
    (CronLineTime_CheckTimeField m h dom mon dow log)._ignored = log._ignored := by
  unfold CronLineTime_CheckTimeField
  split
  · rw [lineWarn_ignored]
    rw [checkOneField_preserve _ lineError_ignored, checkOneField_preserve _ lineError_ignored,
        checkOneField_preserve _ lineError_ignored, checkOneField_preserve _ lineError_ignored,
        checkOneField_preserve _ lineError_ignored]
  · rw [checkOneField_preserve _ lineError_ignored, checkOneField_preserve _ lineError_ignored,
        checkOneField_preserve _ lineError_ignored, checkOneField_preserve _ lineError_ignored,
        checkOneField_preserve _ lineError_ignored]

lemma checkTimeField_warns_aux (m h dom mon dow : String) (log : LogCounter) :
    CronLineTime_CheckTimeField m h dom mon dow log =
      (let log5 := checkOneField "day of week" dow
        (checkOneField "month" mon (checkOneField "day of month" dom
          (checkOneField "hour" h (checkOneField "minute" m log))))
       if ChkCTStarOnly (fsmRun m).cron_times && !(ChkCTStarOnly (fsmRun h).cron_times) then
         log5.LineWarn "HOURS_NOT_MINUTES" "Cron will run this every minute for the hours set."
       else log5) := rfl

lemma atCheck_ignored (tf : String) (log : LogCounter) :
    (CronLineAt_CheckTimeField tf log)._ignored = log._ignored := by
  unfold CronLineAt_CheckTimeField
  split
  · rw [lineError_ignored]
  · rfl

lemma assignment_ignored (v : String) (log : LogCounter) :
    (CronLineAssignment_ValidateAndLog v log)._ignored = log._ignored := by
  unfold CronLineAssignment_ValidateAndLog
  dsimp only
  split
  · rw [lineWarn_ignored]
    split
    · rw [lineError_ignored]
    · rfl
  · split
    · rw [lineError_ignored]
    · rfl

lemma userChain_ignored (gp : String → Bool) (user : String) (lg : LogCounter) :
    ((if user.length > 31 then
        lg.LineError "INVALID_USER" ("Username too long \"" ++ user ++ "\"")
      else if pyStartswith user "-" then
        lg.LineError "INVALID_USER" ("Invalid username \"" ++ user ++ "\"")
      else if hasInvalidUserChar user then
        lg.LineError "INVALID_USER" ("Invalid username \"" ++ user ++ "\"")
      else if gp user then lg
      else lg.LineWarn "USER_NOT_FOUND" ("User \"" ++ user ++ "\" not found."))._ignored) =
      lg._ignored := by
  split
  · rw [lineError_ignored]
  · split
    · rw [lineError_ignored]
    · split
      · rw [lineError_ignored]
      · split
        · rfl
        · rw [lineWarn_ignored]

lemma timeAction_ignored (check_time : LogCounter → LogCounter)
    (hct : ∀ log, (check_time log)._ignored = log._ignored)
    (wl : List String) (gp : String → Bool) (user command : String) (log : LogCounter) :
    (CronLineTimeAction_ValidateAndLog check_time wl gp user command log)._ignored =
      log._ignored := by
  unfold CronLineTimeAction_ValidateAndLog
  dsimp only
  split
  · exact hct log
  · split
    · rw [lineWarn_ignored, userChain_ignored gp user, hct]
    · rw [userChain_ignored gp user, hct]

lemma validateAndLog_ignored (wl : List String) (gp : String → Bool)
    (line : CronLine) (hline : line.isDirective = false) (log : LogCounter) :
    (line.ValidateAndLog wl gp log)._ignored = log._ignored := by
  cases line with
  | empty => rfl
  | comment => rfl
  | chkcrontabCmd c k => simp [CronLine.isDirective] at hline
  | assignment v => exact assignment_ignored v log
  | atLine tf u c =>
    exact timeAction_ignored _ (atCheck_ignored tf) wl gp u c log
  | timeLine m h dom mon dow u c =>
    exact timeAction_ignored _ (checkTimeField_ignored m h dom mon dow) wl gp u c log
  | unknown => exact lineError_ignored log _ _

lemma lineError_self_mem (lg : LogCounter) (k m : String) (h : k ∉ lg._ignored) :
    (k, m) ∈ (lg.LineError k m)._line_errors := by
  unfold LogCounter.LineError
  rw [if_pos h]
  simp

lemma lineError_mem_mono (lg : LogCounter) (k m : String) (x : String × String)
    (hx : x ∈ lg._line_errors) : x ∈ (lg.LineError k m)._line_errors := by
  unfold LogCounter.LineError
  split
  · exact List.mem_append_left _ hx
  · exact hx

lemma directive_ignored_eq (cmd k : String) (log : LogCounter) :
    (CronLineChkCrontabCmd_ValidateAndLog cmd k log)._ignored =
      (if cmd = "disable-msg" then
        (if k ∈ log._ignored then log._ignored else k :: log._ignored)
      else if cmd = "enable-msg" then log._ignored.erase k
      else log._ignored) := by
  unfold CronLineChkCrontabCmd_ValidateAndLog
  dsimp only
  have h1 : ((if !(log.ValidMsgKind k) then
      log.LineError "CHKCRONTAB_ERROR" ("\"" ++ k ++ "\" is an unknown error message.")
    else log))._ignored = log._ignored := by
    split
    · rw [lineError_ignored]
    · rfl
  split
  · unfold LogCounter.Ignore
    dsimp only
    rw [h1]
  · split
    · unfold LogCounter.Unignore
      dsimp only
      rw [h1]
    · rw [lineError_ignored, h1]

/-- Claim C4 counterexample: the directive disable-msg with the unknown
category BOGUS is not a success (a directive-error finding is produced),
yet the aggregator's suppression set is still mutated: BOGUS is added. -/
theorem c4_directive_counterexample :
    LogCounter.ValidMsgKind log0 "BOGUS" = false ∧
    (CronLineChkCrontabCmd_ValidateAndLog "disable-msg" "BOGUS" log0)._line_errors =
      [("CHKCRONTAB_ERROR", "\"BOGUS\" is an unknown error message.")] ∧
    (CronLineChkCrontabCmd_ValidateAndLog "disable-msg" "BOGUS" log0)._ignored = ["BOGUS"] :=
  ⟨rfl, rfl, rfl⟩

/-- Claim C4 as amended: a directive-error finding is produced when the
command is not exactly disable-msg or enable-msg, and when the category
is not a known DiagnosticCategory (in both cases provided
CHKCRONTAB_ERROR itself is not currently suppressed); the suppression
set is mutated whenever the command is disable-msg (category added) or
enable-msg (category removed), regardless of whether the category is
known; and the mutation affects only subsequent lines: validating any
non-directive line leaves the suppression set unchanged, while a
disable-msg directive line puts its category into the suppression set
handed to the following lines. -/
theorem c4_directive_amended :
    (∀ (cmd k : String) (log : LogCounter),
      "CHKCRONTAB_ERROR" ∉ log._ignored → cmd ≠ "disable-msg" → cmd ≠ "enable-msg" →
      ("CHKCRONTAB_ERROR", "Invalid chkcrontab command - must be enable-msg or disable-msg.") ∈
        (CronLineChkCrontabCmd_ValidateAndLog cmd k log)._line_errors) ∧
    (∀ (cmd k : String) (log : LogCounter),
      "CHKCRONTAB_ERROR" ∉ log._ignored → LogCounter.ValidMsgKind log k = false →
      ("CHKCRONTAB_ERROR", "\"" ++ k ++ "\" is an unknown error message.") ∈
        (CronLineChkCrontabCmd_ValidateAndLog cmd k log)._line_errors) ∧
    (∀ (cmd k : String) (log : LogCounter),
      (CronLineChkCrontabCmd_ValidateAndLog cmd k log)._ignored =
        (if cmd = "disable-msg" then
          (if k ∈ log._ignored then log._ignored else k :: log._ignored)
        else if cmd = "enable-msg" then log._ignored.erase k
        else log._ignored)) ∧
    (∀ (wl : List String) (gp : String → Bool) (line : CronLine) (log : LogCounter),
      line.isDirective = false →
      (processLine wl gp line log)._ignored = log._ignored) ∧
    (∀ (wl : List String) (gp : String → Bool) (k : String) (log : LogCounter),
      k ∈ (processLine wl gp (.chkcrontabCmd "disable-msg" k) log)._ignored) := by
  refine ⟨?_, ?_, ?_, ?_, ?_⟩
  · intro cmd k log hns hc1 hc2
    unfold CronLineChkCrontabCmd_ValidateAndLog
    dsimp only
    rw [if_neg hc1, if_neg hc2]
    have hig : ((if !(log.ValidMsgKind k) then
        log.LineError "CHKCRONTAB_ERROR" ("\"" ++ k ++ "\" is an unknown error message.")
      else log))._ignored = log._ignored := by
      split
      · rw [lineError_ignored]
      · rfl
    exact lineError_self_mem _ _ _ (by rw [hig]; exact hns)
  · intro cmd k log hns hbad
    unfold CronLineChkCrontabCmd_ValidateAndLog
    dsimp only
    rw [if_pos (show (!(log.ValidMsgKind k)) = true by rw [hbad]; rfl)]
    have hmem : ("CHKCRONTAB_ERROR", "\"" ++ k ++ "\" is an unknown error message.") ∈
        (log.LineError "CHKCRONTAB_ERROR"
          ("\"" ++ k ++ "\" is an unknown error message."))._line_errors :=
      lineError_self_mem _ _ _ hns
    split
    · unfold LogCounter.Ignore
      exact hmem
    · split
      · unfold LogCounter.Unignore
        exact hmem
      · exact lineError_mem_mono _ _ _ _ hmem
  · intro cmd k log
    exact directive_ignored_eq cmd k log
  · intro wl gp line log hline
    unfold processLine LogCounter.Emit
    dsimp only
    exact validateAndLog_ignored wl gp line hline log
  · intro wl gp k log
    unfold processLine LogCounter.Emit
    dsimp only
    show k ∈ (CronLine.ValidateAndLog wl gp (.chkcrontabCmd "disable-msg" k) log)._ignored
    rw [CronLine.ValidateAndLog]
    rw [directive_ignored_eq]
    rw [if_pos rfl]
    split
    · assumption
    · exact List.mem_cons_self k _

/-- Witness for C4 (amended) at concrete directives, lines and logger
states. -/
theorem c4_directive_amended_witness :
    ("CHKCRONTAB_ERROR", "Invalid chkcrontab command - must be enable-msg or disable-msg.") ∈
      (CronLineChkCrontabCmd_ValidateAndLog "frob-msg" "SHELL_VAR" log0)._line_errors ∧
    ("CHKCRONTAB_ERROR", "\"BOGUS\" is an unknown error message.") ∈
      (CronLineChkCrontabCmd_ValidateAndLog "enable-msg" "BOGUS" log0)._line_errors ∧
    (processLine [] (fun _ => false) (.assignment "x") log0)._ignored = log0._ignored ∧
    "SHELL_VAR" ∈
      (processLine [] (fun _ => false) (.chkcrontabCmd "disable-msg" "SHELL_VAR") log0)._ignored :=
  ⟨c4_directive_amended.1 "frob-msg" "SHELL_VAR" log0 (by decide) (by decide) (by decide),
   c4_directive_amended.2.1 "enable-msg" "BOGUS" log0 (by decide) (by decide),
   c4_directive_amended.2.2.2.1 [] (fun _ => false) (.assignment "x") log0 (by decide),
   c4_directive_amended.2.2.2.2 [] (fun _ => false) "SHELL_VAR" log0⟩

/-- Claim C3 counterexample: the minute field "," fails to parse and
yields no tokens at all - not exactly one Star token - yet with hour
field "5" the hours-not-minutes warning is still emitted (the star-only
test also accepts an empty token list). -/
theorem c3_star_counterexample :
    (fsmRun ",").cron_times = [] ∧
    ("HOURS_NOT_MINUTES", "Cron will run this every minute for the hours set.") ∈
      (CronLineTime_CheckTimeField "," "5" "*" "*" "*" log0)._line_warns := by
  constructor
  · rfl
  · decide

/-- Claim C3 as amended: for a 5-field schedule line (with the warning
category not suppressed), the hours-not-minutes warning is emitted if
and only if the minute field parses to an empty token list or to
exactly one Star token, while the hour field does not; the star-only
test ChkCTStarOnly holds exactly on those token lists. -/
theorem c3_hours_not_minutes_amended :
    ∀ (minute hour dom month dow : String) (log : LogCounter),
    "HOURS_NOT_MINUTES" ∉ log._ignored →
    ((CronLineTime_CheckTimeField minute hour dom month dow log)._line_warns =
      log._line_warns ++
      (if ChkCTStarOnly (fsmRun minute).cron_times &&
          !(ChkCTStarOnly (fsmRun hour).cron_times) then
        [("HOURS_NOT_MINUTES", "Cron will run this every minute for the hours set.")]
      else [])) ∧
    (∀ ts : List CronTimeField,
      ChkCTStarOnly ts = true ↔ ts = [] ∨ ∃ t, ts = [t] ∧ t.Kind = "star") := by
  intro minute hour dom month dow log hns
  have hw : ∀ (n t : String) (lg : LogCounter),
      (checkOneField n t lg)._line_warns = lg._line_warns :=
    fun n t lg => checkOneField_preserve _ lineError_warns n t lg
  have hi : ∀ (n t : String) (lg : LogCounter),
      (checkOneField n t lg)._ignored = lg._ignored :=
    fun n t lg => checkOneField_preserve _ lineError_ignored n t lg
  constructor
  · unfold CronLineTime_CheckTimeField
    dsimp only
    split
    · rename_i hcond
      unfold LogCounter.LineWarn
      rw [if_pos (by rw [hi, hi, hi, hi, hi]; exact hns)]
      dsimp only
      rw [hw, hw, hw, hw, hw]
    · rename_i hcond
      rw [hw, hw, hw, hw, hw]
      simp
  · intro ts
    match ts with
    | [] => simp [ChkCTStarOnly]
    | [t] =>
      simp only [ChkCTStarOnly, beq_iff_eq]
      constructor
      · intro h
        exact Or.inr ⟨t, rfl, h⟩
      · rintro (h | ⟨u, hu, hk⟩)
        · exact absurd h (by simp)
        · cases List.cons.injEq t [] u [] ▸ hu
          simp at hu
          rw [← hu] at hk
          exact hk
    | t1 :: t2 :: rest => simp [ChkCTStarOnly]

/-- Witness for C3 (amended): a concrete line with a starred minute and
hour 5, on a fresh logger. -/
theorem c3_hours_not_minutes_amended_witness :
    (CronLineTime_CheckTimeField "*" "5" "*" "*" "*" log0)._line_warns =
      log0._line_warns ++
      (if ChkCTStarOnly (fsmRun "*").cron_times &&
          !(ChkCTStarOnly (fsmRun "5").cron_times) then
        [("HOURS_NOT_MINUTES", "Cron will run this every minute for the hours set.")]
      else []) :=
  (c3_hours_not_minutes_amended "*" "5" "*" "*" "*" log0 (by decide)).1

lemma foldl_errors_subset {α : Type} (f : LogCounter → α → LogCounter)
    (Q : String × String → Prop)
    (hf : ∀ (log : LogCounter) (a : α) (x : String × String),
      x ∈ (f log a)._line_errors → x ∈ log._line_errors ∨ Q x) :
    ∀ (l : List α) (log : LogCounter) (x : String × String),
      x ∈ (l.foldl f log)._line_errors → x ∈ log._line_errors ∨ Q x := by
  intro l
  induction l with
  | nil => intro log x hx; exact Or.inl hx
  | cons a l ih =>
    intro log x hx
    simp only [List.foldl_cons] at hx
    rcases ih (f log a) x hx with h | h
    · exact hf log a x h
    · exact Or.inr h

lemma checkOneField_errors_subset (field text : String) :
    ∀ (log : LogCounter) (x : String × String),
      x ∈ (checkOneField field text log)._line_errors →
      x ∈ log._line_errors ∨ x.1 = "FIELD_PARSE_ERROR" ∨ x.1 = "FIELD_VALUE_ERROR" := by
  intro log x hx
  unfold checkOneField at hx
  dsimp only at hx
  have houter := foldl_errors_subset
      (fun (log : LogCounter) (ct : CronTimeField) =>
        (ct.GetDiagnostics (InitCronTimeFieldLimits field)).foldl
          (fun log line_error => log.LineError "FIELD_VALUE_ERROR" line_error) log)
      (fun x => x.1 = "FIELD_VALUE_ERROR")
      (fun log ct x hx =>
        foldl_errors_subset _ _ (fun l m x hx2 => lineError_mem l _ m x hx2) _ _ x hx)
  rcases houter _ _ x hx with h | h
  · split at h
    · rcases lineError_mem _ _ _ x h with h2 | h2
      · exact Or.inl h2
      · exact Or.inr (Or.inl h2)
    · exact Or.inl h
  · exact Or.inr (Or.inr h)

lemma checkTimeField_errors_subset (m h dom mon dow : String) :
    ∀ (log : LogCounter) (x : String × String),
      x ∈ (CronLineTime_CheckTimeField m h dom mon dow log)._line_errors →
      x ∈ log._line_errors ∨ x.1 = "FIELD_PARSE_ERROR" ∨ x.1 = "FIELD_VALUE_ERROR" := by
  intro log x hx
  unfold CronLineTime_CheckTimeField at hx
  dsimp only at hx
  have hstep : ∀ (n t : String) (lg : LogCounter) (hy : x ∈ (checkOneField n t lg)._line_errors),
      x ∈ lg._line_errors ∨ x.1 = "FIELD_PARSE_ERROR" ∨ x.1 = "FIELD_VALUE_ERROR" :=
    fun n t lg hy => checkOneField_errors_subset n t lg x hy
  have hx2 : x ∈ (checkOneField "day of week" dow
      (checkOneField "month" mon (checkOneField "day of month" dom
        (checkOneField "hour" h (checkOneField "minute" m log)))))._line_errors := by
    split at hx
    · rw [lineWarn_errors] at hx
      exact hx
    · exact hx
  rcases hstep _ _ _ hx2 with h5 | h5
  · rcases hstep _ _ _ h5 with h4 | h4
    · rcases hstep _ _ _ h4 with h3 | h3
      · rcases hstep _ _ _ h3 with h2 | h2
        · exact hstep _ _ _ h2
        · exact Or.inr h2
      · exact Or.inr h3
    · exact Or.inr h4
  · exact Or.inr h5

lemma checkTimeField_warns_subset (m h dom mon dow : String) :
    ∀ (log : LogCounter) (x : String × String),
      x ∈ (CronLineTime_CheckTimeField m h dom mon dow log)._line_warns →
      x ∈ log._line_warns ∨ x.1 = "HOURS_NOT_MINUTES" := by
  intro log x hx
  have hw : ∀ (n t : String) (lg : LogCounter),
      (checkOneField n t lg)._line_warns = lg._line_warns :=
    fun n t lg => checkOneField_preserve _ lineError_warns n t lg
  unfold CronLineTime_CheckTimeField at hx
  dsimp only at hx
  split at hx
  · rcases lineWarn_mem _ _ _ x hx with h2 | h2
    · rw [hw, hw, hw, hw, hw] at h2
      exact Or.inl h2
    · exact Or.inr h2
  · rw [hw, hw, hw, hw, hw] at hx
    exact Or.inl hx

lemma atCheck_errors_subset (tf : String) :
    ∀ (log : LogCounter) (x : String × String),
      x ∈ (CronLineAt_CheckTimeField tf log)._line_errors →
      x ∈ log._line_errors ∨ x.1 = "INVALID_AT" := by
  intro log x hx
  unfold CronLineAt_CheckTimeField at hx
  split at hx
  · exact lineError_mem _ _ _ x hx
  · exact Or.inl hx

lemma atCheck_warns (tf : String) (log : LogCounter) :
    (CronLineAt_CheckTimeField tf log)._line_warns = log._line_warns := by
  unfold CronLineAt_CheckTimeField
  split
  · rw [lineError_warns]
  · rfl

lemma timeAction_whitelist (check_time : LogCounter → LogCounter)
    (wl : List String) (gp : String → Bool) (user command : String) (log : LogCounter)
    (hmem : user ∈ wl) :
    CronLineTimeAction_ValidateAndLog check_time wl gp user command log = check_time log := by
  unfold CronLineTimeAction_ValidateAndLog
  dsimp only
  rw [if_pos hmem]

lemma timeAction_user_not_found (check_time : LogCounter → LogCounter)
    (wl : List String) (gp : String → Bool) (user command : String) (log : LogCounter)
    (h1 : user ∉ wl) (h2 : ¬ user.length > 31) (h3 : pyStartswith user "-" = false)
    (h4 : hasInvalidUserChar user = false) (h5 : gp user = false) :
    CronLineTimeAction_ValidateAndLog check_time wl gp user command log =
      (if pyStartswith command "%" || hasBarePercent command.data then
        ((check_time log).LineWarn "USER_NOT_FOUND"
            ("User \"" ++ user ++ "\" not found.")).LineWarn
          "BARE_PERCENT" "A bare % is a line break in crontab and is commonly not intended."
      else (check_time log).LineWarn "USER_NOT_FOUND"
        ("User \"" ++ user ++ "\" not found.")) := by
  unfold CronLineTimeAction_ValidateAndLog
  dsimp only
  rw [if_neg h1, if_neg h2,
      if_neg (show ¬ pyStartswith user "-" = true by simp [h3]),
      if_neg (show ¬ hasInvalidUserChar user = true by simp [h4]),
      if_neg (show ¬ gp user = true by simp [h5])]

/-- Claim C8: for @period and 5-field schedule lines with a
whitelisted user (default whitelist plus caller additions), the user
and command checks are skipped entirely - the validation is exactly the
time-field check, whose findings can only be of the field-parse /
field-value / hours-not-minutes (5-field) or invalid-at (@period)
kinds, so no invalid-user, user-not-found or bare-percent finding is
produced; and for a non-whitelisted syntactically valid user that the
identity-resolution collaborator does not find, the result adds a
USER_NOT_FOUND warning (plus possibly the bare-percent warning) and
never touches the error buffer or the error count. -/
theorem c8_whitelist_and_user_not_found :
    (∀ (extra : List String) (gp : String → Bool) (user command : String) (log : LogCounter)
        (m h dom mon dow tf : String),
      user ∈ USER_WHITELIST ++ extra →
      (CronLine.ValidateAndLog (USER_WHITELIST ++ extra) gp
          (.timeLine m h dom mon dow user command) log =
        CronLineTime_CheckTimeField m h dom mon dow log) ∧
      (CronLine.ValidateAndLog (USER_WHITELIST ++ extra) gp (.atLine tf user command) log =
        CronLineAt_CheckTimeField tf log) ∧
      (∀ x ∈ (CronLine.ValidateAndLog (USER_WHITELIST ++ extra) gp
          (.timeLine m h dom mon dow user command) log)._line_errors,
        x ∈ log._line_errors ∨ x.1 = "FIELD_PARSE_ERROR" ∨ x.1 = "FIELD_VALUE_ERROR") ∧
      (∀ x ∈ (CronLine.ValidateAndLog (USER_WHITELIST ++ extra) gp
          (.timeLine m h dom mon dow user command) log)._line_warns,
        x ∈ log._line_warns ∨ x.1 = "HOURS_NOT_MINUTES") ∧
      (∀ x ∈ (CronLine.ValidateAndLog (USER_WHITELIST ++ extra) gp
          (.atLine tf user command) log)._line_errors,
        x ∈ log._line_errors ∨ x.1 = "INVALID_AT") ∧
      ((CronLine.ValidateAndLog (USER_WHITELIST ++ extra) gp
          (.atLine tf user command) log)._line_warns = log._line_warns)) ∧
    (∀ (wl : List String) (check_time : LogCounter → LogCounter) (gp : String → Bool)
        (user command : String) (log : LogCounter),
      user ∉ wl → ¬ user.length > 31 → pyStartswith user "-" = false →
      hasInvalidUserChar user = false → gp user = false →
      (CronLineTimeAction_ValidateAndLog check_time wl gp user command log =
        (if pyStartswith command "%" || hasBarePercent command.data then
          ((check_time log).LineWarn "USER_NOT_FOUND"
              ("User \"" ++ user ++ "\" not found.")).LineWarn
            "BARE_PERCENT" "A bare % is a line break in crontab and is commonly not intended."
        else (check_time log).LineWarn "USER_NOT_FOUND"
          ("User \"" ++ user ++ "\" not found."))) ∧
      (CronLineTimeAction_ValidateAndLog check_time wl gp user command log)._line_errors =
        (check_time log)._line_errors ∧
      (CronLineTimeAction_ValidateAndLog check_time wl gp user command log)._error_count =
        (check_time log)._error_count) := by
  constructor
  · intro extra gp user command log m h dom mon dow tf hmem
    have ht : CronLine.ValidateAndLog (USER_WHITELIST ++ extra) gp
        (.timeLine m h dom mon dow user command) log =
        CronLineTime_CheckTimeField m h dom mon dow log := by
      rw [CronLine.ValidateAndLog]
      exact timeAction_whitelist _ _ gp user command log hmem
    have ha : CronLine.ValidateAndLog (USER_WHITELIST ++ extra) gp
        (.atLine tf user command) log = CronLineAt_CheckTimeField tf log := by
      rw [CronLine.ValidateAndLog]
      exact timeAction_whitelist _ _ gp user command log hmem
    refine ⟨ht, ha, ?_, ?_, ?_, ?_⟩
    · intro x hx
      rw [ht] at hx
      exact checkTimeField_errors_subset m h dom mon dow log x hx
    · intro x hx
      rw [ht] at hx
      exact checkTimeField_warns_subset m h dom mon dow log x hx
    · intro x hx
      rw [ha] at hx
      exact atCheck_errors_subset tf log x hx
    · rw [ha]
      exact atCheck_warns tf log
  · intro wl check_time gp user command log h1 h2 h3 h4 h5
    have heq := timeAction_user_not_found check_time wl gp user command log h1 h2 h3 h4 h5
    refine ⟨heq, ?_, ?_⟩
    · rw [heq]
      split
      · rw [lineWarn_errors, lineWarn_errors]
      · rw [lineWarn_errors]
    · rw [heq]
      split
      · rw [lineWarn_error_count, lineWarn_error_count]
      · rw [lineWarn_error_count]

/-- Witness for C8: the whitelisted user postgres on a concrete
5-field line, and the unknown but syntactically valid user alice, whom
the identity collaborator does not find. -/
theorem c8_whitelist_and_user_not_found_witness :
    (CronLine.ValidateAndLog (USER_WHITELIST ++ []) (fun _ => false)
        (.timeLine "*" "*" "*" "*" "*" "postgres" "true") log0 =
      CronLineTime_CheckTimeField "*" "*" "*" "*" "*" log0) ∧
    (CronLineTimeAction_ValidateAndLog (CronLineAt_CheckTimeField "daily") ["postgres", "buildbot"]
        (fun _ => false) "alice" "true" log0)._error_count =
      (CronLineAt_CheckTimeField "daily" log0)._error_count :=
  ⟨(c8_whitelist_and_user_not_found.1 [] (fun _ => false) "postgres" "true" log0
      "*" "*" "*" "*" "*" "@daily" (by decide)).1,
   (c8_whitelist_and_user_not_found.2 ["postgres", "buildbot"] (CronLineAt_CheckTimeField "daily")
      (fun _ => false) "alice" "true" log0 (by decide) (by decide) (by decide) (by decide)
      rfl).2.2⟩

lemma fsmTransition_error (st : FSMState) (c : Char) (act : DataOut → Char → DataOut)
    (st2 : FSMState) (h : fsmTransition st c = some (act, st2)) (d : DataOut) :
    (act d c).parser_error = d.parser_error := by
  cases st <;> simp only [fsmTransition] at h <;> split_ifs at h <;>
    first
      | exact Option.noConfusion h
      | (simp only [Option.some.injEq, Prod.mk.injEq] at h
         obtain ⟨ha, hs⟩ := h
         subst ha
         rfl)

lemma fsmEnd_error (st : FSMState) (act : DataOut → DataOut)
    (h : fsmEnd st = some act) (d : DataOut) :
    (act d).parser_error = d.parser_error := by
  cases st <;> simp only [fsmEnd] at h <;>
    first
      | exact Option.noConfusion h
      | (simp only [Option.some.injEq] at h
         subst h
         rfl)

lemma fsmConsume_error : ∀ (l : List Char) (st : FSMState) (d d2 : DataOut) (st2 : FSMState),
    fsmConsume st d l = some (d2, st2) → d2.parser_error = d.parser_error := by
  intro l
  induction l with
  | nil =>
    intro st d d2 st2 h
    rw [fsmConsume] at h
    simp only [Option.some.injEq, Prod.mk.injEq] at h
    obtain ⟨hd, hs⟩ := h
    rw [← hd]
  | cons c cs ih =>
    intro st d d2 st2 h
    rw [fsmConsume] at h
    cases ht : fsmTransition st c with
    | none => rw [ht] at h; exact Option.noConfusion h
    | some p =>
      obtain ⟨act, stn⟩ := p
      rw [ht] at h
      dsimp only at h
      rw [ih stn (act d c) d2 st2 h, fsmTransition_error st c act stn ht d]

lemma fsmRunAux_spec : ∀ (rest : List Char) (st : FSMState) (d : DataOut) (parsed : List Char),
    (∃ d2 st2, fsmConsume st d rest = some (d2, st2) ∧
      ((∃ act, fsmEnd st2 = some act ∧ fsmRunAux st d parsed rest = act d2) ∨
       (fsmEnd st2 = none ∧
         fsmRunAux st d parsed rest =
           { d2 with parser_error := some (.incomplete (String.mk (parsed ++ rest))) }))) ∨
    (∃ l1 c l2 d2 st2, rest = l1 ++ c :: l2 ∧ fsmConsume st d l1 = some (d2, st2) ∧
      fsmTransition st2 c = none ∧
      fsmRunAux st d parsed rest =
        { d2 with parser_error := some (.split (String.mk (parsed ++ l1)) c (String.mk l2)) }) := by
  intro rest
  induction rest with
  | nil =>
    intro st d parsed
    left
    refine ⟨d, st, rfl, ?_⟩
    cases he : fsmEnd st with
    | none =>
      right
      refine ⟨rfl, ?_⟩
      rw [fsmRunAux, he, List.append_nil]
    | some act =>
      left
      exact ⟨act, rfl, by rw [fsmRunAux, he]⟩
  | cons c cs ih =>
    intro st d parsed
    cases ht : fsmTransition st c with
    | none =>
      right
      refine ⟨[], c, cs, d, st, rfl, rfl, ht, ?_⟩
      rw [fsmRunAux, ht, List.append_nil]
    | some p =>
      obtain ⟨act, stn⟩ := p
      have hrun : fsmRunAux st d parsed (c :: cs) = fsmRunAux stn (act d c) (parsed ++ [c]) cs := by
        rw [fsmRunAux, ht]
      have hcons : fsmConsume st d (c :: cs) = fsmConsume stn (act d c) cs := by
        rw [fsmConsume, ht]
      rcases ih stn (act d c) (parsed ++ [c]) with
        ⟨d2, st2, hc, hrest⟩ | ⟨l1, c1, l2, d2, st2, heq, hc, htr, hres⟩
      · left
        refine ⟨d2, st2, by rw [hcons]; exact hc, ?_⟩
        rcases hrest with ⟨act2, he, hr⟩ | ⟨he, hr⟩
        · exact Or.inl ⟨act2, he, by rw [hrun, hr]⟩
        · refine Or.inr ⟨he, ?_⟩
          rw [hrun, hr]
          have hl : (parsed ++ [c]) ++ cs = parsed ++ c :: cs := by simp
          rw [hl]
      · right
        refine ⟨c :: l1, c1, l2, d2, st2, by rw [heq, List.cons_append], ?_, htr, ?_⟩
        · rw [fsmConsume, ht]
          dsimp only
          exact hc
        · rw [hrun, hres]
          have hl : (parsed ++ [c]) ++ l1 = parsed ++ c :: l1 := by simp
          rw [hl]

lemma string_mk_append (a b : List Char) :
    String.mk a ++ String.mk b = String.mk (a ++ b) := rfl

/-- Claim C1: FSM.Run over the cron grammar is total - it is a Lean
function, so it terminates on every finite input and raises nothing -
and every outcome is fully characterised: either no parser_error is
recorded and the whole input was consumed into an end state whose
completion action produced the result, or the error is a split at a
character with no valid transition from the state reached by the
consumed prefix (with exactly the tokens completed on that prefix
returned, in order), or the error marks the field incomplete at end of
input in a state with no completion action (again returning exactly the
tokens completed so far). -/
theorem c1_parse_total_characterization : ∀ s : String,
    ((fsmRun s).parser_error = none →
      ∃ d2 st2 act, fsmConsume .start data_out_init s.data = some (d2, st2) ∧
        fsmEnd st2 = some act ∧ fsmRun s = act d2) ∧
    (∀ p c suf, (fsmRun s).parser_error = some (.split p c suf) →
      ∃ d2 st2, fsmConsume .start data_out_init p.data = some (d2, st2) ∧
        fsmTransition st2 c = none ∧ (fsmRun s).cron_times = d2.cron_times) ∧
    (∀ p, (fsmRun s).parser_error = some (.incomplete p) →
      p = s ∧ ∃ d2 st2, fsmConsume .start data_out_init s.data = some (d2, st2) ∧
        fsmEnd st2 = none ∧ (fsmRun s).cron_times = d2.cron_times) := by
  intro s
  have hrun : fsmRun s = fsmRunAux .start data_out_init [] s.data := rfl
  rcases fsmRunAux_spec s.data .start data_out_init [] with
    ⟨d2, st2, hc, ⟨act, he, hr⟩ | ⟨he, hr⟩⟩ |
    ⟨l1, c1, l2, d2, st2, heq, hc, htr, hr⟩
  · have herr : (fsmRun s).parser_error = none := by
      rw [hrun, hr, fsmEnd_error st2 act he d2,
        fsmConsume_error s.data .start data_out_init d2 st2 hc]
      rfl
    refine ⟨fun _ => ⟨d2, st2, act, hc, he, by rw [hrun, hr]⟩, ?_, ?_⟩
    · intro p c suf h
      rw [herr] at h
      exact Option.noConfusion h
    · intro p h
      rw [herr] at h
      exact Option.noConfusion h
  · have herr : (fsmRun s).parser_error =
        some (.incomplete (String.mk ([] ++ s.data))) := by
      rw [hrun, hr]
    refine ⟨?_, ?_, ?_⟩
    · intro h
      rw [herr] at h
      exact Option.noConfusion h
    · intro p c suf h
      rw [herr] at h
      simp only [Option.some.injEq] at h
      exact ParserError.noConfusion h
    · intro p h
      rw [herr] at h
      simp only [List.nil_append, Option.some.injEq, ParserError.incomplete.injEq] at h
      constructor
      · rw [← h]
      · exact ⟨d2, st2, hc, he, by rw [hrun, hr]⟩
  · have herr : (fsmRun s).parser_error =
        some (.split (String.mk ([] ++ l1)) c1 (String.mk l2)) := by
      rw [hrun, hr]
    refine ⟨?_, ?_, ?_⟩
    · intro h
      rw [herr] at h
      exact Option.noConfusion h
    · intro p c suf h
      rw [herr] at h
      simp only [List.nil_append, Option.some.injEq, ParserError.split.injEq] at h
      obtain ⟨hp, hcc, hsuf⟩ := h
      refine ⟨d2, st2, ?_, ?_, by rw [hrun, hr]⟩
      · rw [← hp]
        exact hc
      · rw [← hcc]
        exact htr
    · intro p h
      rw [herr] at h
      simp only [Option.some.injEq] at h
      exact ParserError.noConfusion h

/-- Witness for C1: the input * parses cleanly; the characterization
produces its consumed state and completion action. -/
theorem c1_parse_total_characterization_witness :
    ∃ d2 st2 act, fsmConsume .start data_out_init "*".data = some (d2, st2) ∧
      fsmEnd st2 = some act ∧ fsmRun "*" = act d2 :=
  (c1_parse_total_characterization "*").1 (by decide)

/-- Claim C9: whenever the parse stops at a character with no valid
transition, the reported split reconstructs the input exactly: consumed
prefix, offending character and unconsumed suffix concatenate back to
the input, and the offending character sits at index len(prefix). -/
theorem c9_split_reconstructs_input : ∀ (s p : String) (c : Char) (suf : String),
    (fsmRun s).parser_error = some (.split p c suf) →
    p ++ String.singleton c ++ suf = s ∧ s.data.drop p.length = c :: suf.data := by
  intro s p c suf h
  rcases fsmRunAux_spec s.data .start data_out_init [] with
    ⟨d2, st2, hc, ⟨act, he, hr⟩ | ⟨he, hr⟩⟩ |
    ⟨l1, c1, l2, d2, st2, heq, hc, htr, hr⟩
  · have herr : (fsmRun s).parser_error = none := by
      rw [show fsmRun s = fsmRunAux .start data_out_init [] s.data from rfl, hr,
        fsmEnd_error st2 act he d2,
        fsmConsume_error s.data .start data_out_init d2 st2 hc]
      rfl
    rw [herr] at h
    exact Option.noConfusion h
  · have herr : (fsmRun s).parser_error = some (.incomplete (String.mk ([] ++ s.data))) := by
      rw [show fsmRun s = fsmRunAux .start data_out_init [] s.data from rfl, hr]
    rw [herr] at h
    simp only [Option.some.injEq] at h
    exact ParserError.noConfusion h
  · have herr : (fsmRun s).parser_error =
        some (.split (String.mk ([] ++ l1)) c1 (String.mk l2)) := by
      rw [show fsmRun s = fsmRunAux .start data_out_init [] s.data from rfl, hr]
    rw [herr] at h
    simp only [List.nil_append, Option.some.injEq, ParserError.split.injEq] at h
    obtain ⟨hp, hcc, hsuf⟩ := h
    constructor
    · rw [← hp, ← hcc, ← hsuf,
        show String.singleton c1 = String.mk [c1] from rfl,
        string_mk_append, string_mk_append,
        show s = String.mk s.data from rfl, heq]
      congr 1
      simp
    · rw [← hp, ← hcc, ← hsuf, heq]
      show (l1 ++ c1 :: l2).drop (String.mk l1).length = c1 :: l2
      show (l1 ++ c1 :: l2).drop l1.length = c1 :: l2
      exact List.drop_left l1 (c1 :: l2)

/-- Witness for C9: the input 1x2 fails at the letter x after consuming
1; the split reassembles to the original input. -/
theorem c9_split_reconstructs_input_witness :
    ("1" : String) ++ String.singleton 'x' ++ "2" = "1x2" ∧
    ("1x2" : String).data.drop ("1" : String).length = 'x' :: ("2" : String).data :=
  c9_split_reconstructs_input "1x2" "1" 'x' "2" (by decide)

lemma fsmTransition_comma (st : FSMState) :
    fsmTransition st ',' = none ∨
      ∃ act, fsmTransition st ',' = some (act, .next) := by
  cases st <;> first | exact Or.inl rfl | exact Or.inr ⟨_, rfl⟩

lemma trailing_comma_error : ∀ (rest : List Char) (st : FSMState) (d : DataOut)
    (parsed : List Char), d.parser_error = none →
    (fsmRunAux st d parsed (rest ++ [','])).parser_error.isSome = true := by
  intro rest
  induction rest with
  | nil =>
    intro st d parsed hd
    simp only [List.nil_append]
    rcases fsmTransition_comma st with h | ⟨act, h⟩
    · rw [fsmRunAux, h]
      rfl
    · rw [fsmRunAux, h]
      dsimp only
      rw [fsmRunAux]
      rfl
  | cons c cs ih =>
    intro st d parsed hd
    rw [List.cons_append]
    cases ht : fsmTransition st c with
    | none =>
      rw [fsmRunAux, ht]
      rfl
    | some p =>
      obtain ⟨act, stn⟩ := p
      rw [fsmRunAux, ht]
      dsimp only
      exact ih stn (act d c) (parsed ++ [c])
        (by rw [fsmTransition_error st c act stn ht d, hd])

lemma consume_digits_time : ∀ (ds : List Char), (∀ c ∈ ds, c.isDigit = true) →
    ∀ d : DataOut,
    fsmConsume .time d ds = some ({ d with time := String.mk (d.time.data ++ ds) }, .time) := by
  intro ds
  induction ds with
  | nil =>
    intro _ d
    rw [fsmConsume, List.append_nil]
  | cons c cs ih =>
    intro hall d
    have hc : c.isDigit = true := hall c (List.mem_cons_self _ _)
    rw [fsmConsume,
      show fsmTransition .time c = some (action_time, .time) by simp [fsmTransition, hc]]
    dsimp only
    rw [ih (fun x hx => hall x (List.mem_cons_of_mem _ hx)) (action_time d c)]
    have hl : (d.time.data ++ [c]) ++ cs = d.time.data ++ c :: cs := by simp
    show some ({ d with time := String.mk ((d.time.data ++ [c]) ++ cs) }, FSMState.time) = _
    rw [hl]

lemma consume_digits_range : ∀ (ds : List Char), (∀ c ∈ ds, c.isDigit = true) →
    ∀ d : DataOut,
    fsmConsume .range d ds = some ({ d with time := String.mk (d.time.data ++ ds) }, .range) := by
  intro ds
  induction ds with
  | nil =>
    intro _ d
    rw [fsmConsume, List.append_nil]
  | cons c cs ih =>
    intro hall d
    have hc : c.isDigit = true := hall c (List.mem_cons_self _ _)
    rw [fsmConsume,
      show fsmTransition .range c = some (action_time, .range) by simp [fsmTransition, hc]]
    dsimp only
    rw [ih (fun x hx => hall x (List.mem_cons_of_mem _ hx)) (action_time d c)]
    have hl : (d.time.data ++ [c]) ++ cs = d.time.data ++ c :: cs := by simp
    show some ({ d with time := String.mk ((d.time.data ++ [c]) ++ cs) }, FSMState.range) = _
    rw [hl]

lemma consume_digits_range_step : ∀ (ds : List Char), (∀ c ∈ ds, c.isDigit = true) →
    ∀ d : DataOut,
    fsmConsume .range_step d ds =
      some ({ d with step := String.mk (d.step.data ++ ds) }, .range_step) := by
  intro ds
  induction ds with
  | nil =>
    intro _ d
    rw [fsmConsume, List.append_nil]
  | cons c cs ih =>
    intro hall d
    have hc : c.isDigit = true := hall c (List.mem_cons_self _ _)
    rw [fsmConsume,
      show fsmTransition .range_step c = some (action_step, .range_step) by
        simp [fsmTransition, hc]]
    dsimp only
    rw [ih (fun x hx => hall x (List.mem_cons_of_mem _ hx)) (action_step d c)]
    have hl : (d.step.data ++ [c]) ++ cs = d.step.data ++ c :: cs := by simp
    show some ({ d with step := String.mk ((d.step.data ++ [c]) ++ cs) }, FSMState.range_step) = _
    rw [hl]

lemma consume_digits_text_range_step : ∀ (ds : List Char), (∀ c ∈ ds, c.isDigit = true) →
    ∀ d : DataOut,
    fsmConsume .text_range_step d ds =
      some ({ d with step := String.mk (d.step.data ++ ds) }, .text_range_step) := by
  intro ds
  induction ds with
  | nil =>
    intro _ d
    rw [fsmConsume, List.append_nil]
  | cons c cs ih =>
    intro hall d
    have hc : c.isDigit = true := hall c (List.mem_cons_self _ _)
    rw [fsmConsume,
      show fsmTransition .text_range_step c = some (action_step, .text_range_step) by
        simp [fsmTransition, hc]]
    dsimp only
    rw [ih (fun x hx => hall x (List.mem_cons_of_mem _ hx)) (action_step d c)]
    have hl : (d.step.data ++ [c]) ++ cs = d.step.data ++ c :: cs := by simp
    show some ({ d with step := String.mk ((d.step.data ++ [c]) ++ cs) },
      FSMState.text_range_step) = _
    rw [hl]

lemma consume_alpha_text : ∀ (ds : List Char), (∀ c ∈ ds, c.isAlpha = true) →
    ∀ d : DataOut,
    fsmConsume .text d ds = some ({ d with time := String.mk (d.time.data ++ ds) }, .text) := by
  intro ds
  induction ds with
  | nil =>
    intro _ d
    rw [fsmConsume, List.append_nil]
  | cons c cs ih =>
    intro hall d
    have hc : c.isAlpha = true := hall c (List.mem_cons_self _ _)
    rw [fsmConsume,
      show fsmTransition .text c = some (action_time, .text) by simp [fsmTransition, hc]]
    dsimp only
    rw [ih (fun x hx => hall x (List.mem_cons_of_mem _ hx)) (action_time d c)]
    have hl : (d.time.data ++ [c]) ++ cs = d.time.data ++ c :: cs := by simp
    show some ({ d with time := String.mk ((d.time.data ++ [c]) ++ cs) }, FSMState.text) = _
    rw [hl]

lemma consume_alpha_text_range : ∀ (ds : List Char), (∀ c ∈ ds, c.isAlpha = true) →
    ∀ d : DataOut,
    fsmConsume .text_range d ds =
      some ({ d with time := String.mk (d.time.data ++ ds) }, .text_range) := by
  intro ds
  induction ds with
  | nil =>
    intro _ d
    rw [fsmConsume, List.append_nil]
  | cons c cs ih =>
    intro hall d
    have hc : c.isAlpha = true := hall c (List.mem_cons_self _ _)
    rw [fsmConsume,
      show fsmTransition .text_range c = some (action_time, .text_range) by
        simp [fsmTransition, hc]]
    dsimp only
    rw [ih (fun x hx => hall x (List.mem_cons_of_mem _ hx)) (action_time d c)]
    have hl : (d.time.data ++ [c]) ++ cs = d.time.data ++ c :: cs := by simp
    show some ({ d with time := String.mk ((d.time.data ++ [c]) ++ cs) }, FSMState.text_range) = _
    rw [hl]

lemma consume_start_digits (a : List Char) (hne : a ≠ [])
    (hall : ∀ c ∈ a, c.isDigit = true) (d : DataOut) :
    fsmConsume .start d a = some ({ d with time := String.mk (d.time.data ++ a) }, .time) := by
  cases a with
  | nil => exact absurd rfl hne
  | cons c cs =>
    have hc : c.isDigit = true := hall c (List.mem_cons_self _ _)
    have hstar : ¬ c = '*' := by
      intro h
      rw [h] at hc
      exact absurd hc (by decide)
    rw [fsmConsume,
      show fsmTransition .start c = some (action_time, .time) by
        simp [fsmTransition, hstar, hc]]
    dsimp only
    rw [consume_digits_time cs (fun x hx => hall x (List.mem_cons_of_mem _ hx)) (action_time d c)]
    have hl : (d.time.data ++ [c]) ++ cs = d.time.data ++ c :: cs := by simp
    show some ({ d with time := String.mk ((d.time.data ++ [c]) ++ cs) }, FSMState.time) = _
    rw [hl]

lemma alpha_not_digit (c : Char) (h : c.isAlpha = true) : c.isDigit = false := by
  simp only [Char.isAlpha, Char.isUpper, Char.isLower, Char.isDigit, Bool.or_eq_true,
    Bool.and_eq_true, decide_eq_true_eq] at h ⊢
  by_contra hd
  simp only [Bool.not_eq_false, Bool.and_eq_true, decide_eq_true_eq] at hd
  obtain ⟨hd1, hd2⟩ := hd
  simp only [UInt32.le_def, BitVec.le_def] at h hd1 hd2
  have e57 : (UInt32.toBitVec 57).toNat = 57 := rfl
  have e65 : (UInt32.toBitVec 65).toNat = 65 := rfl
  have e97 : (UInt32.toBitVec 97).toNat = 97 := rfl
  rw [e57] at hd2
  rcases h with ⟨h1, _⟩ | ⟨h1, _⟩
  · rw [e65] at h1
    omega
  · rw [e97] at h1
    omega

lemma consume_start_alpha (a : List Char) (hne : a ≠ [])
    (hall : ∀ c ∈ a, c.isAlpha = true) (d : DataOut) :
    fsmConsume .start d a = some ({ d with time := String.mk (d.time.data ++ a) }, .text) := by
  cases a with
  | nil => exact absurd rfl hne
  | cons c cs =>
    have hc : c.isAlpha = true := hall c (List.mem_cons_self _ _)
    have hstar : ¬ c = '*' := by
      intro h
      rw [h] at hc
      exact absurd hc (by decide)
    have hdig : c.isDigit = false := alpha_not_digit c hc
    rw [fsmConsume,
      show fsmTransition .start c = some (action_time, .text) by
        simp [fsmTransition, hstar, hc, hdig]]
    dsimp only
    rw [consume_alpha_text cs (fun x hx => hall x (List.mem_cons_of_mem _ hx)) (action_time d c)]
    have hl : (d.time.data ++ [c]) ++ cs = d.time.data ++ c :: cs := by simp
    show some ({ d with time := String.mk ((d.time.data ++ [c]) ++ cs) }, FSMState.text) = _
    rw [hl]

lemma fsmConsume_append : ∀ (l1 l2 : List Char) (st : FSMState) (d : DataOut),
    fsmConsume st d (l1 ++ l2) =
      match fsmConsume st d l1 with
      | none => none
      | some (d2, st2) => fsmConsume st2 d2 l2 := by
  intro l1
  induction l1 with
  | nil => intro l2 st d; rfl
  | cons c cs ih =>
    intro l2 st d
    rw [List.cons_append, fsmConsume]
    cases ht : fsmTransition st c with
    | none =>
      rw [fsmConsume, ht]
    | some p =>
      obtain ⟨act, stn⟩ := p
      rw [fsmConsume, ht]
      dsimp only
      exact ih l2 stn (act d c)

lemma fsmRun_of_consume (s : String) (d2 : DataOut) (st2 : FSMState)
    (hc : fsmConsume .start data_out_init s.data = some (d2, st2)) :
    fsmRun s =
      (match fsmEnd st2 with
        | some act => act d2
        | none => { d2 with parser_error := some (.incomplete (String.mk s.data)) }) := by
  rcases fsmRunAux_spec s.data .start data_out_init [] with
    ⟨d2', st2', hc', hrest⟩ | ⟨l1, c1, l2, d2', st2', heq, hc', htr, hr⟩
  · have hinj : d2 = d2' ∧ st2 = st2' := by
      have := hc.symm.trans hc'
      simp only [Option.some.injEq, Prod.mk.injEq] at this
      exact this
    obtain ⟨hd, hs⟩ := hinj
    subst hd
    subst hs
    rcases hrest with ⟨act, he, hr⟩ | ⟨he, hr⟩
    · rw [he]
      exact hr
    · rw [he]
      rw [show fsmRun s = fsmRunAux .start data_out_init [] s.data from rfl, hr,
        List.nil_append]
  · exfalso
    rw [heq, fsmConsume_append] at hc
    rw [hc'] at hc
    dsimp only at hc
    rw [fsmConsume, htr] at hc
    exact Option.noConfusion hc

lemma run_shape_num (s : String) (hne : s.data ≠ []) (hall : ∀ c ∈ s.data, c.isDigit = true) :
    fsmRun s = { time := "", range := "", step := "",
                 cron_times := [CronTimeField.CTTime (pyInt s)],
                 parser_error := none } := by
  have hc := consume_start_digits s.data hne hall data_out_init
  rw [fsmRun_of_consume s _ _ hc]
  rfl

lemma run_shape_text (s : String) (hne : s.data ≠ []) (hall : ∀ c ∈ s.data, c.isAlpha = true) :
    fsmRun s = { time := "", range := "", step := "",
                 cron_times := [CronTimeField.CTText (String.mk s.data)],
                 parser_error := none } := by
  have hc := consume_start_alpha s.data hne hall data_out_init
  rw [fsmRun_of_consume s _ _ hc]
  rfl

lemma string_data_append (x y : String) : (x ++ y).data = x.data ++ y.data := rfl

lemma consume_start_range_digits (a : List Char) (hne : a ≠ [])
    (hall : ∀ c ∈ a, c.isDigit = true) (d : DataOut) :
    fsmConsume .start_range d a =
      some ({ d with time := String.mk (d.time.data ++ a) }, .range) := by
  cases a with
  | nil => exact absurd rfl hne
  | cons c cs =>
    have hc : c.isDigit = true := hall c (List.mem_cons_self _ _)
    rw [fsmConsume,
      show fsmTransition .start_range c = some (action_time, .range) by
        simp [fsmTransition, hc]]
    dsimp only
    rw [consume_digits_range cs (fun x hx => hall x (List.mem_cons_of_mem _ hx)) (action_time d c)]
    have hl : (d.time.data ++ [c]) ++ cs = d.time.data ++ c :: cs := by simp
    show some ({ d with time := String.mk ((d.time.data ++ [c]) ++ cs) }, FSMState.range) = _
    rw [hl]

lemma consume_start_range_step_digits (a : List Char) (hne : a ≠ [])
    (hall : ∀ c ∈ a, c.isDigit = true) (d : DataOut) :
    fsmConsume .start_range_step d a =
      some ({ d with step := String.mk (d.step.data ++ a) }, .range_step) := by
  cases a with
  | nil => exact absurd rfl hne
  | cons c cs =>
    have hc : c.isDigit = true := hall c (List.mem_cons_self _ _)
    rw [fsmConsume,
      show fsmTransition .start_range_step c = some (action_step, .range_step) by
        simp [fsmTransition, hc]]
    dsimp only
    rw [consume_digits_range_step cs (fun x hx => hall x (List.mem_cons_of_mem _ hx))
      (action_step d c)]
    have hl : (d.step.data ++ [c]) ++ cs = d.step.data ++ c :: cs := by simp
    show some ({ d with step := String.mk ((d.step.data ++ [c]) ++ cs) }, FSMState.range_step) = _
    rw [hl]

lemma consume_start_text_range_alpha (a : List Char) (hne : a ≠ [])
    (hall : ∀ c ∈ a, c.isAlpha = true) (d : DataOut) :
    fsmConsume .start_text_range d a =
      some ({ d with time := String.mk (d.time.data ++ a) }, .text_range) := by
  cases a with
  | nil => exact absurd rfl hne
  | cons c cs =>
    have hc : c.isAlpha = true := hall c (List.mem_cons_self _ _)
    rw [fsmConsume,
      show fsmTransition .start_text_range c = some (action_time, .text_range) by
        simp [fsmTransition, hc]]
    dsimp only
    rw [consume_alpha_text_range cs (fun x hx => hall x (List.mem_cons_of_mem _ hx))
      (action_time d c)]
    have hl : (d.time.data ++ [c]) ++ cs = d.time.data ++ c :: cs := by simp
    show some ({ d with time := String.mk ((d.time.data ++ [c]) ++ cs) }, FSMState.text_range) = _
    rw [hl]

lemma consume_start_text_range_step_digits (a : List Char) (hne : a ≠ [])
    (hall : ∀ c ∈ a, c.isDigit = true) (d : DataOut) :
    fsmConsume .start_text_range_step d a =
      some ({ d with step := String.mk (d.step.data ++ a) }, .text_range_step) := by
  cases a with
  | nil => exact absurd rfl hne
  | cons c cs =>
    have hc : c.isDigit = true := hall c (List.mem_cons_self _ _)
    rw [fsmConsume,
      show fsmTransition .start_text_range_step c = some (action_step, .text_range_step) by
        simp [fsmTransition, hc]]
    dsimp only
    rw [consume_digits_text_range_step cs (fun x hx => hall x (List.mem_cons_of_mem _ hx))
      (action_step d c)]
    have hl : (d.step.data ++ [c]) ++ cs = d.step.data ++ c :: cs := by simp
    show some ({ d with step := String.mk ((d.step.data ++ [c]) ++ cs) },
      FSMState.text_range_step) = _
    rw [hl]

lemma consume_range (a b : String) (hna : a.data ≠ []) (haa : ∀ c ∈ a.data, c.isDigit = true)
    (hnb : b.data ≠ []) (hab : ∀ c ∈ b.data, c.isDigit = true) :
    fsmConsume .start data_out_init (a.data ++ '-' :: b.data) =
      some ({ time := String.mk b.data, range := String.mk a.data, step := "",
              cron_times := [], parser_error := none }, .range) := by
  rw [fsmConsume_append, consume_start_digits a.data hna haa]
  dsimp only
  rw [fsmConsume, show fsmTransition .time '-' = some (action_dash, .start_range) from rfl]
  dsimp only
  rw [consume_start_range_digits b.data hnb hab]
  rfl

lemma consume_range_step (a b n : String)
    (hna : a.data ≠ []) (haa : ∀ c ∈ a.data, c.isDigit = true)
    (hnb : b.data ≠ []) (hab : ∀ c ∈ b.data, c.isDigit = true)
    (hnn : n.data ≠ []) (han : ∀ c ∈ n.data, c.isDigit = true) :
    fsmConsume .start data_out_init (a.data ++ '-' :: (b.data ++ '/' :: n.data)) =
      some ({ time := String.mk b.data, range := String.mk a.data, step := String.mk n.data,
              cron_times := [], parser_error := none }, .range_step) := by
  rw [fsmConsume_append, consume_start_digits a.data hna haa]
  dsimp only
  rw [fsmConsume, show fsmTransition .time '-' = some (action_dash, .start_range) from rfl]
  dsimp only
  rw [fsmConsume_append, consume_start_range_digits b.data hnb hab]
  dsimp only
  rw [fsmConsume,
    show fsmTransition .range '/' = some (action_noop, .start_range_step) from rfl]
  dsimp only
  rw [consume_start_range_step_digits n.data hnn han]
  rfl

lemma consume_text_range (a b : String) (hna : a.data ≠ []) (haa : ∀ c ∈ a.data, c.isAlpha = true)
    (hnb : b.data ≠ []) (hab : ∀ c ∈ b.data, c.isAlpha = true) :
    fsmConsume .start data_out_init (a.data ++ '-' :: b.data) =
      some ({ time := String.mk b.data, range := String.mk a.data, step := "",
              cron_times := [], parser_error := none }, .text_range) := by
  rw [fsmConsume_append, consume_start_alpha a.data hna haa]
  dsimp only
  rw [fsmConsume, show fsmTransition .text '-' = some (action_dash, .start_text_range) from rfl]
  dsimp only
  rw [consume_start_text_range_alpha b.data hnb hab]
  rfl

lemma consume_text_range_step (a b n : String)
    (hna : a.data ≠ []) (haa : ∀ c ∈ a.data, c.isAlpha = true)
    (hnb : b.data ≠ []) (hab : ∀ c ∈ b.data, c.isAlpha = true)
    (hnn : n.data ≠ []) (han : ∀ c ∈ n.data, c.isDigit = true) :
    fsmConsume .start data_out_init (a.data ++ '-' :: (b.data ++ '/' :: n.data)) =
      some ({ time := String.mk b.data, range := String.mk a.data, step := String.mk n.data,
              cron_times := [], parser_error := none }, .text_range_step) := by
  rw [fsmConsume_append, consume_start_alpha a.data hna haa]
  dsimp only
  rw [fsmConsume, show fsmTransition .text '-' = some (action_dash, .start_text_range) from rfl]
  dsimp only
  rw [fsmConsume_append, consume_start_text_range_alpha b.data hnb hab]
  dsimp only
  rw [fsmConsume,
    show fsmTransition .text_range '/' = some (action_noop, .start_text_range_step) from rfl]
  dsimp only
  rw [consume_start_text_range_step_digits n.data hnn han]
  rfl

lemma run_shape_range (a b : String)
    (hna : a.data ≠ []) (haa : ∀ c ∈ a.data, c.isDigit = true)
    (hnb : b.data ≠ []) (hab : ∀ c ∈ b.data, c.isDigit = true) :
    fsmRun (a ++ "-" ++ b) =
      { time := "", range := "", step := "",
        cron_times := [CronTimeField.CTRange (pyInt a) (pyInt b)],
        parser_error := none } := by
  have hdata : (a ++ "-" ++ b).data = a.data ++ '-' :: b.data := by
    rw [string_data_append, string_data_append]
    simp
  have hc : fsmConsume .start data_out_init (a ++ "-" ++ b).data =
      some ({ time := String.mk b.data, range := String.mk a.data, step := "",
              cron_times := [], parser_error := none }, .range) := by
    rw [hdata]
    exact consume_range a b hna haa hnb hab
  rw [fsmRun_of_consume _ _ _ hc]
  rfl

lemma run_shape_range_step (a b n : String)
    (hna : a.data ≠ []) (haa : ∀ c ∈ a.data, c.isDigit = true)
    (hnb : b.data ≠ []) (hab : ∀ c ∈ b.data, c.isDigit = true)
    (hnn : n.data ≠ []) (han : ∀ c ∈ n.data, c.isDigit = true) :
    fsmRun (a ++ "-" ++ b ++ "/" ++ n) =
      { time := "", range := "", step := "",
        cron_times := [CronTimeField.CTRangeStep (pyInt a) (pyInt b) (pyInt n)],
        parser_error := none } := by
  have hdata : (a ++ "-" ++ b ++ "/" ++ n).data =
      a.data ++ '-' :: (b.data ++ '/' :: n.data) := by
    rw [string_data_append, string_data_append, string_data_append, string_data_append]
    simp
  have hc : fsmConsume .start data_out_init (a ++ "-" ++ b ++ "/" ++ n).data =
      some ({ time := String.mk b.data, range := String.mk a.data, step := String.mk n.data,
              cron_times := [], parser_error := none }, .range_step) := by
    rw [hdata]
    exact consume_range_step a b n hna haa hnb hab hnn han
  rw [fsmRun_of_consume _ _ _ hc]
  rfl

lemma run_shape_text_range (a b : String)
    (hna : a.data ≠ []) (haa : ∀ c ∈ a.data, c.isAlpha = true)
    (hnb : b.data ≠ []) (hab : ∀ c ∈ b.data, c.isAlpha = true) :
    fsmRun (a ++ "-" ++ b) =
      { time := "", range := "", step := "",
        cron_times := [CronTimeField.CTTextRange (String.mk a.data) (String.mk b.data)],
        parser_error := none } := by
  have hdata : (a ++ "-" ++ b).data = a.data ++ '-' :: b.data := by
    rw [string_data_append, string_data_append]
    simp
  have hc : fsmConsume .start data_out_init (a ++ "-" ++ b).data =
      some ({ time := String.mk b.data, range := String.mk a.data, step := "",
              cron_times := [], parser_error := none }, .text_range) := by
    rw [hdata]
    exact consume_text_range a b hna haa hnb hab
  rw [fsmRun_of_consume _ _ _ hc]
  rfl

lemma run_shape_text_range_step (a b n : String)
    (hna : a.data ≠ []) (haa : ∀ c ∈ a.data, c.isAlpha = true)
    (hnb : b.data ≠ []) (hab : ∀ c ∈ b.data, c.isAlpha = true)
    (hnn : n.data ≠ []) (han : ∀ c ∈ n.data, c.isDigit = true) :
    fsmRun (a ++ "-" ++ b ++ "/" ++ n) =
      { time := "", range := "", step := "",
        cron_times := [CronTimeField.CTTextRangeStep (String.mk a.data) (String.mk b.data)
          (pyInt n)],
        parser_error := none } := by
  have hdata : (a ++ "-" ++ b ++ "/" ++ n).data =
      a.data ++ '-' :: (b.data ++ '/' :: n.data) := by
    rw [string_data_append, string_data_append, string_data_append, string_data_append]
    simp
  have hc : fsmConsume .start data_out_init (a ++ "-" ++ b ++ "/" ++ n).data =
      some ({ time := String.mk b.data, range := String.mk a.data, step := String.mk n.data,
              cron_times := [], parser_error := none }, .text_range_step) := by
    rw [hdata]
    exact consume_text_range_step a b n hna haa hnb hab hnn han
  rw [fsmRun_of_consume _ _ _ hc]
  rfl

/-- Claim C6 counterexample: the input 05 is a valid single-element
input of shape N (one or more digits), parses to exactly one token, but
that token renders as 5, not as the original input 05. -/
theorem c6_render_counterexample :
    (fsmRun "05").parser_error = none ∧
    (fsmRun "05").cron_times = [CronTimeField.CTTime 5] ∧
    (CronTimeField.CTTime 5).render = "5" ∧
    ¬ ((CronTimeField.CTTime 5).render = "05") := by
  refine ⟨rfl, rfl, rfl, by decide⟩

/-- Claim C6 as amended: for every valid single-element input of the
shapes *, N, N-N, N-N/N, T, T-T, T-T/N in which each numeric component
is written canonically (no leading zeros, so that the component equals
the decimal rendering of its value), parsing returns exactly one token
and that token's canonical rendering equals the original input. -/
theorem c6_single_element_roundtrip_amended : ∀ s : String, SingleElementShape s →
    (fsmRun s).parser_error = none ∧
    ∃ t : CronTimeField, (fsmRun s).cron_times = [t] ∧ t.render = s := by
  intro s hshape
  rcases hshape with hs | ⟨hne, hall, hcanon⟩ | ⟨a, b, ha, hb, hs⟩ |
    ⟨a, b, n, ha, hb, hn, hs⟩ | ⟨hne, hall⟩ | ⟨a, b, ha, hb, hs⟩ |
    ⟨a, b, n, ha, hb, hn, hs⟩
  · subst hs
    exact ⟨rfl, ⟨.CTStar, rfl, rfl⟩⟩
  · rw [run_shape_num s hne hall]
    exact ⟨rfl, ⟨.CTTime (pyInt s), rfl, hcanon⟩⟩
  · obtain ⟨hna, haa, hca⟩ := ha
    obtain ⟨hnb, hab, hcb⟩ := hb
    subst hs
    rw [run_shape_range a b hna haa hnb hab]
    refine ⟨rfl, ⟨.CTRange (pyInt a) (pyInt b), rfl, ?_⟩⟩
    show Nat.repr (pyInt a) ++ "-" ++ Nat.repr (pyInt b) = a ++ "-" ++ b
    rw [hca, hcb]
  · obtain ⟨hna, haa, hca⟩ := ha
    obtain ⟨hnb, hab, hcb⟩ := hb
    obtain ⟨hnn, han, hcn⟩ := hn
    subst hs
    rw [run_shape_range_step a b n hna haa hnb hab hnn han]
    refine ⟨rfl, ⟨.CTRangeStep (pyInt a) (pyInt b) (pyInt n), rfl, ?_⟩⟩
    show Nat.repr (pyInt a) ++ "-" ++ Nat.repr (pyInt b) ++ "/" ++ Nat.repr (pyInt n) =
      a ++ "-" ++ b ++ "/" ++ n
    rw [hca, hcb, hcn]
  · rw [run_shape_text s hne hall]
    exact ⟨rfl, ⟨.CTText (String.mk s.data), rfl, rfl⟩⟩
  · obtain ⟨hna, haa⟩ := ha
    obtain ⟨hnb, hab⟩ := hb
    subst hs
    rw [run_shape_text_range a b hna haa hnb hab]
    exact ⟨rfl, ⟨.CTTextRange (String.mk a.data) (String.mk b.data), rfl, rfl⟩⟩
  · obtain ⟨hna, haa⟩ := ha
    obtain ⟨hnb, hab⟩ := hb
    obtain ⟨hnn, han, hcn⟩ := hn
    subst hs
    rw [run_shape_text_range_step a b n hna haa hnb hab hnn han]
    refine ⟨rfl, ⟨.CTTextRangeStep (String.mk a.data) (String.mk b.data) (pyInt n), rfl, ?_⟩⟩
    show String.mk a.data ++ "-" ++ String.mk b.data ++ "/" ++ Nat.repr (pyInt n) =
      a ++ "-" ++ b ++ "/" ++ n
    rw [hcn]

/-- Witness for C6 (amended): the canonical input 5 round-trips. -/
theorem c6_single_element_roundtrip_amended_witness :
    (fsmRun "5").parser_error = none ∧
    ∃ t : CronTimeField, (fsmRun "5").cron_times = [t] ∧ t.render = "5" :=
  c6_single_element_roundtrip_amended "5"
    (Or.inr (Or.inl ⟨by decide, by decide, by decide⟩))

lemma fsmTransition_star (st : FSMState) :
    fsmTransition st '*' = none ∨ ∃ act, fsmTransition st '*' = some (act, .star) := by
  cases st <;> first | exact Or.inl rfl | exact Or.inr ⟨_, rfl⟩

lemma fsmTransition_dash (st : FSMState) :
    fsmTransition st '-' = none ∨
      (∃ act, fsmTransition st '-' = some (act, .start_range)) ∨
      (∃ act, fsmTransition st '-' = some (act, .start_text_range)) := by
  cases st <;>
    first
      | exact Or.inl rfl
      | exact Or.inr (Or.inl ⟨_, rfl⟩)
      | exact Or.inr (Or.inr ⟨_, rfl⟩)

lemma fsmTransition_slash (st : FSMState) :
    fsmTransition st '/' = none ∨
      (∃ act, fsmTransition st '/' = some (act, .start_star_step)) ∨
      (∃ act, fsmTransition st '/' = some (act, .start_range_step)) ∨
      (∃ act, fsmTransition st '/' = some (act, .start_text_range_step)) := by
  cases st <;>
    first
      | exact Or.inl rfl
      | exact Or.inr (Or.inl ⟨_, rfl⟩)
      | exact Or.inr (Or.inr (Or.inl ⟨_, rfl⟩))
      | exact Or.inr (Or.inr (Or.inr ⟨_, rfl⟩))

lemma star_target (st st1 : FSMState) (act : DataOut → Char → DataOut)
    (ht : fsmTransition st '*' = some (act, st1)) : st1 = .star := by
  rcases fsmTransition_star st with h | ⟨a, h⟩
  · rw [h] at ht
    exact Option.noConfusion ht
  · rw [h] at ht
    simp only [Option.some.injEq, Prod.mk.injEq] at ht
    exact ht.2.symm

lemma comma_target (st st1 : FSMState) (act : DataOut → Char → DataOut)
    (ht : fsmTransition st ',' = some (act, st1)) : st1 = .next := by
  rcases fsmTransition_comma st with h | ⟨a, h⟩
  · rw [h] at ht
    exact Option.noConfusion ht
  · rw [h] at ht
    simp only [Option.some.injEq, Prod.mk.injEq] at ht
    exact ht.2.symm

lemma dash_target (st st1 : FSMState) (act : DataOut → Char → DataOut)
    (ht : fsmTransition st '-' = some (act, st1)) :
    st1 = .start_range ∨ st1 = .start_text_range := by
  rcases fsmTransition_dash st with h | ⟨a, h⟩ | ⟨a, h⟩
  · rw [h] at ht
    exact Option.noConfusion ht
  · rw [h] at ht
    simp only [Option.some.injEq, Prod.mk.injEq] at ht
    exact Or.inl ht.2.symm
  · rw [h] at ht
    simp only [Option.some.injEq, Prod.mk.injEq] at ht
    exact Or.inr ht.2.symm

lemma slash_target (st st1 : FSMState) (act : DataOut → Char → DataOut)
    (ht : fsmTransition st '/' = some (act, st1)) :
    st1 = .start_star_step ∨ st1 = .start_range_step ∨ st1 = .start_text_range_step := by
  rcases fsmTransition_slash st with h | ⟨a, h⟩ | ⟨a, h⟩ | ⟨a, h⟩
  · rw [h] at ht
    exact Option.noConfusion ht
  · rw [h] at ht
    simp only [Option.some.injEq, Prod.mk.injEq] at ht
    exact Or.inl ht.2.symm
  · rw [h] at ht
    simp only [Option.some.injEq, Prod.mk.injEq] at ht
    exact Or.inr (Or.inl ht.2.symm)
  · rw [h] at ht
    simp only [Option.some.injEq, Prod.mk.injEq] at ht
    exact Or.inr (Or.inr ht.2.symm)

lemma structuralChar_cases (c : Char) (h : structuralChar c = true) :
    c = '*' ∨ c = '-' ∨ c = '/' ∨ c = ',' := by
  simp only [structuralChar, Bool.or_eq_true, decide_eq_true_eq] at h
  tauto

lemma structural_pair_stuck (st st1 : FSMState) (c1 c2 : Char)
    (act : DataOut → Char → DataOut)
    (h1 : structuralChar c1 = true) (h2 : structuralChar c2 = true)
    (hx1 : ¬(c1 = '*' ∧ c2 = ',')) (hx2 : ¬(c1 = '*' ∧ c2 = '/'))
    (hx3 : ¬(c1 = ',' ∧ c2 = '*'))
    (ht : fsmTransition st c1 = some (act, st1)) :
    fsmTransition st1 c2 = none := by
  rcases structuralChar_cases c1 h1 with hc1 | hc1 | hc1 | hc1 <;> subst hc1
  · have hst := star_target st st1 act ht
    subst hst
    rcases structuralChar_cases c2 h2 with hc2 | hc2 | hc2 | hc2 <;> subst hc2
    · rfl
    · rfl
    · exact absurd ⟨rfl, rfl⟩ hx2
    · exact absurd ⟨rfl, rfl⟩ hx1
  · rcases dash_target st st1 act ht with hst | hst <;> subst hst <;>
      (rcases structuralChar_cases c2 h2 with hc2 | hc2 | hc2 | hc2 <;> subst hc2 <;> rfl)
  · rcases slash_target st st1 act ht with hst | hst | hst <;> subst hst <;>
      (rcases structuralChar_cases c2 h2 with hc2 | hc2 | hc2 | hc2 <;> subst hc2 <;> rfl)
  · have hst := comma_target st st1 act ht
    subst hst
    rcases structuralChar_cases c2 h2 with hc2 | hc2 | hc2 | hc2 <;> subst hc2
    · exact absurd ⟨rfl, rfl⟩ hx3
    · rfl
    · rfl
    · rfl

lemma consume_of_no_error (s : String) (h : (fsmRun s).parser_error = none) :
    ∃ d2 st2, fsmConsume .start data_out_init s.data = some (d2, st2) := by
  rcases fsmRunAux_spec s.data .start data_out_init [] with
    ⟨d2, st2, hc, _⟩ | ⟨l1, c1, l2, d2, st2, heq, hc, htr, hr⟩
  · exact ⟨d2, st2, hc⟩
  · exfalso
    have : (fsmRun s).parser_error =
        some (.split (String.mk ([] ++ l1)) c1 (String.mk l2)) := by
      rw [show fsmRun s = fsmRunAux .start data_out_init [] s.data from rfl, hr]
    rw [h] at this
    exact Option.noConfusion this

lemma adjacent_structural_error (s : String) (l1 l2 : List Char) (c1 c2 : Char)
    (hs : s.data = l1 ++ c1 :: c2 :: l2)
    (h1 : structuralChar c1 = true) (h2 : structuralChar c2 = true)
    (hx1 : ¬(c1 = '*' ∧ c2 = ',')) (hx2 : ¬(c1 = '*' ∧ c2 = '/'))
    (hx3 : ¬(c1 = ',' ∧ c2 = '*')) :
    ((fsmRun s).parser_error).isSome = true := by
  cases herr : (fsmRun s).parser_error with
  | some e => rfl
  | none =>
    exfalso
    obtain ⟨d2, st2, hcons⟩ := consume_of_no_error s herr
    rw [hs, fsmConsume_append] at hcons
    cases h0 : fsmConsume .start data_out_init l1 with
    | none =>
      rw [h0] at hcons
      exact Option.noConfusion hcons
    | some p =>
      obtain ⟨d0, st0⟩ := p
      rw [h0] at hcons
      dsimp only at hcons
      rw [fsmConsume] at hcons
      cases ht1 : fsmTransition st0 c1 with
      | none =>
        rw [ht1] at hcons
        exact Option.noConfusion hcons
      | some q =>
        obtain ⟨act1, st1⟩ := q
        rw [ht1] at hcons
        dsimp only at hcons
        rw [fsmConsume,
          structural_pair_stuck st0 st1 c1 c2 act1 h1 h2 hx1 hx2 hx3 ht1] at hcons
        exact Option.noConfusion hcons

/-- Claim C7: the parser never silently accepts a trailing separator or
an empty element: every input ending in a comma errors (the comma moves
the machine to the intermediate state next, which has no completion
action, or has no transition at all); the empty input errors; any input
containing two adjacent structural characters with no valid transition
yields a ParseOutcome carrying a ParseError - among the structural
characters star, dash, slash and comma, only the adjacent pairs star
before comma, star before slash, and comma before star ever have a
valid transition for the second character, so every input containing
any other adjacent structural pair errors; in particular the pairs **,
--, //, and ,, at field start all error. -/
theorem c7_no_silent_trailing_or_empty :
    (∀ s : String, ((fsmRun (s ++ ",")).parser_error).isSome = true) ∧
    ((fsmRun "").parser_error.isSome = true) ∧
    (∀ (s : String) (l1 l2 : List Char) (c1 c2 : Char),
      s.data = l1 ++ c1 :: c2 :: l2 →
      structuralChar c1 = true → structuralChar c2 = true →
      ¬(c1 = '*' ∧ c2 = ',') → ¬(c1 = '*' ∧ c2 = '/') → ¬(c1 = ',' ∧ c2 = '*') →
      ((fsmRun s).parser_error).isSome = true) ∧
    ((fsmRun "**").parser_error.isSome = true) ∧
    ((fsmRun "--").parser_error.isSome = true) ∧
    ((fsmRun "//").parser_error.isSome = true) ∧
    ((fsmRun ",,").parser_error.isSome = true) := by
  refine ⟨?_, by decide, ?_, by decide, by decide, by decide, by decide⟩
  · intro s
    have hdata : (s ++ ",").data = s.data ++ [','] := rfl
    rw [show fsmRun (s ++ ",") = fsmRunAux .start data_out_init [] (s ++ ",").data from rfl,
      hdata]
    exact trailing_comma_error s.data .start data_out_init [] rfl
  · intro s l1 l2 c1 c2 hs h1 h2 hx1 hx2 hx3
    exact adjacent_structural_error s l1 l2 c1 c2 hs h1 h2 hx1 hx2 hx3

/-- Witness for C7: the adjacent structural pairs inside 5--6 (dash
after dash, mid-input) and 1,,2 (comma after comma, mid-input) both
produce a ParseError. -/
theorem c7_no_silent_trailing_or_empty_witness :
    ((fsmRun "5--6").parser_error).isSome = true ∧
    ((fsmRun "1,,2").parser_error).isSome = true :=
  ⟨c7_no_silent_trailing_or_empty.2.2.1 "5--6" ['5'] ['6'] '-' '-'
      (by decide) (by decide) (by decide) (by decide) (by decide) (by decide),
   c7_no_silent_trailing_or_empty.2.2.1 "1,,2" ['1'] ['2'] ',' ','
      (by decide) (by decide) (by decide) (by decide) (by decide) (by decide)⟩
